import Mathlib

/-!
Verification development for the beatmap-lifecycle core of the repository
(`app/api/v1/api.py`: `api_vote_beatmap`, `api_love_beatmap`,
`api_rank_beatmap`, `api_cancel_beatmap`; `app/bg_loops.py`:
`_check_betmap_status`).

The relational tables (`maps`, `scores`, `map_requests`, `users`), the redis
vote keys (`vote:{userid}:{set_id}`) and the process-local beatmap cache
(`app.state.cache.beatmap`) are embedded as explicit state; each HTTP handler
becomes a pure function from a state and its query parameters to the new
state and the response it returns.

Modelling notes, recorded once here:

* `maps.status` values follow the source's branches: Pending = 0,
  Ranked = 2, Qualified = 4, Loved = 5 (love writes 5, rank writes 2, the
  vote quorum writes 4, cancel writes 0, the scheduler promotes 4 to 2).
* FastAPI delivers each of `discord_id`, `set_id`, `key` as an optional
  value; the handlers' first guard is Python truthiness
  (`if not discord_id or not set_id or not key`), under which the integer 0
  and the empty string count as absent.
* `Privileges` bit constants live outside the four source files; the
  privilege tests `priv & (NOMINATOR | NAT)` and `priv & NAT` are embedded
  as the boolean fields `isNominator` / `isNAT` of a user row.
* The Discord webhook posts are external fire-and-forget effects; the
  scheduler model records them (and its other per-item work) as an event
  trace, which is what the deduplication claim is about.
* In `api_vote_beatmap` (and in `_check_betmap_status`) the row loop binds
  the whole fetched record where the sibling endpoints bind `row["id"]`;
  the embedding reads the intended id/md5 of the iterated row, which is the
  reading most generous to the code.  The dead branches of the vote count
  (`if vote_count is None` after `len(...)`, and the non-int error return)
  are omitted: `len` always yields an int.
-/

/-- One row of the `maps` table: sub-item id, set-level id, content
fingerprint, lifecycle status, frozen flag and `change_date` timestamp
(unix seconds). -/
structure MapRow where
  id : Nat
  set_id : Nat
  md5 : String
  status : Int
  frozen : Bool
  change_date : Int
deriving DecidableEq, Repr

/-- One row of the `scores` table; only the `map_md5` reference matters to
the lifecycle (the scheduler deletes scores by `map_md5`). -/
structure ScoreRow where
  score_id : Nat
  map_md5 : String
deriving DecidableEq, Repr

/-- One row of `map_requests`; the lifecycle deletes them by `map_id`. -/
structure MapRequest where
  req_id : Nat
  map_id : Nat
deriving DecidableEq, Repr

/-- One row of `users`: the discord lookup key and the outcome of the two
privilege-bit tests the endpoints perform. -/
structure UserRow where
  id : Nat
  discord_id : Nat
  name : String
  isNAT : Bool
  isNominator : Bool
deriving DecidableEq, Repr

/-- A process-local cache entry for one fingerprint:
`app.state.cache.beatmap[md5].status` / `.frozen`. -/
structure CacheEntry where
  status : Int
  frozen : Bool
deriving DecidableEq, Repr

/-- The combined state the lifecycle endpoints touch: the relational tables,
the redis vote keys (present keys `vote:{userid}:{set_id}` as pairs
`(userid, set_id)`), and the process-local beatmap cache keyed by md5. -/
structure SysState where
  maps : List MapRow
  scores : List ScoreRow
  map_requests : List MapRequest
  users : List UserRow
  votes : List (Nat × Nat)
  cache : List (String × CacheEntry)
deriving DecidableEq, Repr

/-- `fetch_val("SELECT status FROM maps WHERE set_id = :set_id")`: the
status of the first row of the set, if any. -/
def fetchStatus (st : SysState) (s : Nat) : Option Int :=
  (st.maps.find? (fun r => r.set_id == s)).map (fun r => r.status)

/-- `fetch_val("SELECT set_id FROM maps WHERE set_id = :set_id")` used as an
existence check. -/
def setExists (st : SysState) (s : Nat) : Prop :=
  ∃ r ∈ st.maps, r.set_id = s

instance (st : SysState) (s : Nat) : Decidable (setExists st s) :=
  List.decidableBEx _ st.maps

/-- `fetch_val("SELECT * FROM users WHERE discord_id = :discord_id")`
followed by `players_repo.fetch_one(id=...)`. -/
def userByDiscord (st : SysState) (d : Nat) : Option UserRow :=
  st.users.find? (fun u => u.discord_id == d)

/-- Python truthiness of an optional integer query parameter: absent, or
present with value 0. -/
def natParamMissing : Option Nat → Prop
  | none => True
  | some n => n = 0

instance : DecidablePred natParamMissing := fun o =>
  match o with
  | none => isTrue trivial
  | some n => inferInstanceAs (Decidable (n = 0))

/-- Python truthiness of an optional string query parameter: absent, or
present and empty. -/
def strParamMissing : Option String → Prop
  | none => True
  | some s => s = ""

instance : DecidablePred strParamMissing := fun o =>
  match o with
  | none => isTrue trivial
  | some s => inferInstanceAs (Decidable (s = ""))

/-- `if md5 in app.state.cache.beatmap: cache[md5].status := ...;
cache[md5].frozen := ...` — update the entry when present, create nothing. -/
def cacheSet (c : List (String × CacheEntry)) (md5 : String) (e : CacheEntry) :
    List (String × CacheEntry) :=
  c.map (fun p => if p.1 == md5 then (p.1, e) else p)

/-- Cache lookup (`app.state.cache.beatmap.get(md5)`). -/
def cacheGet (c : List (String × CacheEntry)) (md5 : String) : Option CacheEntry :=
  (c.find? (fun p => p.1 == md5)).map (fun p => p.2)

/-- The responses the four lifecycle endpoints can return (status code and
message collapsed to one constructor per distinct exit). -/
inductive ApiResp where
  /-- 400 "Missing required parameters!" -/
  | missingParams
  /-- 404 "User not found!" -/
  | userNotFound
  /-- 403 "You are not a nominator or NAT!" / "You are not a NAT!" -/
  | notAuthorized
  /-- 403 "Invalid osu!api key!" -/
  | invalidKey
  /-- 403 "Beatmap is already ranked, loved, or qualified!" (the message
  wording varies slightly across the endpoints). -/
  | alreadyStatused
  /-- 403 "You have already voted this beatmap!" -/
  | alreadyVoted
  /-- 404 "Beatmap not found! (Please recheck your beatmap set_id!)" -/
  | beatmapNotFound
  /-- 200 vote accepted, with the reported vote and still-needed counts. -/
  | voteAccepted (votes : Nat) (need : Nat)
  /-- 200 "Now, this mapset has been loved/ranked/canceled!" -/
  | transitionDone
deriving DecidableEq, Repr

/-- The per-row body of the quorum branch of `api_vote_beatmap`
(lines 600–613): update the cache entry of the row's md5 to status 2,
frozen true, and delete its `map_requests` rows.  The vote path performs no
per-row write to `maps`. -/
def voteRowStep (acc : SysState) (row : MapRow) : SysState :=
  { acc with
    cache := cacheSet acc.cache row.md5 ⟨2, true⟩,
    map_requests := acc.map_requests.filter (fun q => q.map_id != row.id) }

/-- `api_vote_beatmap` (`app/api/v1/api.py` lines 366–656).  `apiKey` is
`app.settings.OSU_API_KEY`; `now` is the database clock used by
`change_date = now()`. -/
def api_vote_beatmap (st : SysState) (did sid : Option Nat) (key : Option String)
    (apiKey : String) (now : Int) : SysState × ApiResp :=
  if natParamMissing did ∨ natParamMissing sid ∨ strParamMissing key then
    (st, .missingParams)
  else
    let d := did.getD 0
    let s := sid.getD 0
    let k := key.getD ""
    match userByDiscord st d with
    | none => (st, .userNotFound)
    | some u =>
      if ¬ (u.isNominator = true ∨ u.isNAT = true) then (st, .notAuthorized)
      else if k ≠ apiKey then (st, .invalidKey)
      else if fetchStatus st s ∈ [some 2, some 3, some 4, some 5] then
        (st, .alreadyStatused)
      else if (u.id, s) ∈ st.votes then (st, .alreadyVoted)
      else if ¬ setExists st s then (st, .beatmapNotFound)
      else
        let cnt := (st.votes.filter (fun p => p.2 == s)).length
        let votes1 := (u.id, s) :: st.votes
        if cnt + 1 = 1 then
          ({ st with votes := votes1 }, .voteAccepted 1 1)
        else
          let maps1 := st.maps.map
            (fun r => if r.set_id == s then { r with status := 4 } else r)
          let votes2 := votes1.filter (fun p => p != (u.id, s))
          let maps2 := maps1.map
            (fun r => if r.set_id == s then { r with change_date := now } else r)
          let rows := maps2.filter (fun r => r.set_id == s)
          let st2 := rows.foldl voteRowStep
            { st with maps := maps2, votes := votes2 }
          (st2, .voteAccepted (cnt + 1) 0)

/-- The per-row body shared by the success branches of `api_love_beatmap`,
`api_rank_beatmap` and `api_cancel_beatmap`: `maps_repo.update(idmap,
status=t, frozen=f)`, the guarded cache write, and the `map_requests`
deletion for that row. -/
def modRowStep (t : Int) (f : Bool) (acc : SysState) (row : MapRow) : SysState :=
  { acc with
    maps := acc.maps.map
      (fun r => if r.id == row.id then { r with status := t, frozen := f } else r),
    cache := cacheSet acc.cache row.md5 ⟨t, f⟩,
    map_requests := acc.map_requests.filter (fun q => q.map_id != row.id) }

/-- Common shape of `api_love_beatmap` (lines 669–837), `api_rank_beatmap`
(843–1011) and `api_cancel_beatmap` (1018–1197), which differ only in the
status tuple rejected up front, the status value written, and the frozen
value written; the guard chain (params → user → NAT → key → status tuple →
existence) and the success body (set-wide `UPDATE status`, set-wide
`UPDATE change_date = now()`, then the per-row loop) are identical. -/
def modAction (st : SysState) (did sid : Option Nat) (key : Option String)
    (apiKey : String) (now : Int) (rejectStatuses : List (Option Int))
    (target : Int) (tfrozen : Bool) : SysState × ApiResp :=
  if natParamMissing did ∨ natParamMissing sid ∨ strParamMissing key then
    (st, .missingParams)
  else
    let d := did.getD 0
    let s := sid.getD 0
    let k := key.getD ""
    match userByDiscord st d with
    | none => (st, .userNotFound)
    | some u =>
      if ¬ u.isNAT = true then (st, .notAuthorized)
      else if k ≠ apiKey then (st, .invalidKey)
      else if fetchStatus st s ∈ rejectStatuses then (st, .alreadyStatused)
      else if ¬ setExists st s then (st, .beatmapNotFound)
      else
        let maps1 := st.maps.map
          (fun r => if r.set_id == s then { r with status := target } else r)
        let maps2 := maps1.map
          (fun r => if r.set_id == s then { r with change_date := now } else r)
        let rows := maps2.filter (fun r => r.set_id == s)
        let st2 := rows.foldl (modRowStep target tfrozen) { st with maps := maps2 }
        (st2, .transitionDone)

/-- `api_love_beatmap`: rejects statuses (2, 3, 4, 5), writes status 5,
frozen true. -/
def api_love_beatmap (st : SysState) (did sid : Option Nat) (key : Option String)
    (apiKey : String) (now : Int) : SysState × ApiResp :=
  modAction st did sid key apiKey now [some 2, some 3, some 4, some 5] 5 true

/-- `api_rank_beatmap`: rejects statuses (2, 4, 5), writes status 2,
frozen true.  It deletes `map_requests` rows but touches no `scores` row. -/
def api_rank_beatmap (st : SysState) (did sid : Option Nat) (key : Option String)
    (apiKey : String) (now : Int) : SysState × ApiResp :=
  modAction st did sid key apiKey now [some 2, some 4, some 5] 2 true

/-- `api_cancel_beatmap`: rejects statuses (2, 3, 5), writes status 0,
frozen false. -/
def api_cancel_beatmap (st : SysState) (did sid : Option Nat) (key : Option String)
    (apiKey : String) (now : Int) : SysState × ApiResp :=
  modAction st did sid key apiKey now [some 2, some 3, some 5] 0 false

/-- Observable per-item work of one `_check_betmap_status` sweep. -/
inductive TickEvent where
  /-- `UPDATE maps SET status = 2 WHERE set_id = :id` executed for one row
  of the qualified-rows query result. -/
  | statusUpdate (sid : Nat)
  /-- The Discord "is now ranked!" webhook for the set. -/
  | notify (sid : Nat)
  /-- The guarded cache write for one sub-item's md5. -/
  | cacheUpd (md5 : String)
  /-- `DELETE FROM map_requests WHERE map_id = :id` for one sub-item. -/
  | deleteRequests (map_id : Nat)
  /-- `DELETE FROM scores WHERE map_md5 = :map_md5` for one sub-item. -/
  | purgeScores (md5 : String)
deriving DecidableEq, BEq, Repr

/-- Inner loop body of `_check_betmap_status` (lines 162–185): per sub-item
of the set being promoted, update the cache entry, delete its map requests
and delete its scores. -/
def tickRowStep (acc : SysState × List TickEvent) (row : MapRow) :
    SysState × List TickEvent :=
  ({ acc.1 with
      cache := cacheSet acc.1.cache row.md5 ⟨2, true⟩,
      map_requests := acc.1.map_requests.filter (fun q => q.map_id != row.id),
      scores := acc.1.scores.filter (fun sc => sc.map_md5 != row.md5) },
   acc.2 ++ [.cacheUpd row.md5, .deleteRequests row.id, .purgeScores row.md5])

/-- Outer loop body of `_check_betmap_status` (lines 116–185), executed once
per row of the qualified query result (so possibly several times per set):
set-wide status update to 2, the `alreadyrank`-guarded notification, then
the per-sub-item loop. -/
def tickSetStep (acc : SysState × List Nat × List TickEvent) (sid : Nat) :
    SysState × List Nat × List TickEvent :=
  let st1 : SysState :=
    { acc.1 with
      maps := acc.1.maps.map
        (fun r => if r.set_id == sid then { r with status := 2 } else r) }
  let evs1 := acc.2.2 ++ [.statusUpdate sid]
  let ae : List Nat × List TickEvent :=
    if sid ∈ acc.2.1 then (acc.2.1, evs1)
    else (acc.2.1 ++ [sid], evs1 ++ [.notify sid])
  let rows := st1.maps.filter (fun r => r.set_id == sid)
  let se := rows.foldl tickRowStep (st1, ae.2)
  (se.1, ae.1, se.2)

/-- The rows returned by `SELECT set_id FROM maps WHERE status = 4 AND
change_date < :threshold_time` — one entry per sub-item row, so a set with
several qualified sub-items appears several times. -/
def qualifiedSetIds (st : SysState) (threshold : Int) : List Nat :=
  (st.maps.filter (fun r => r.status == 4 && decide (r.change_date < threshold))).map
    (fun r => r.set_id)

/-- One iteration of `_check_betmap_status` after its sleep (lines 99–185).
`devMode` selects the one-minute window of `DEVELOPER_MODE`; production uses
`timedelta(minutes=1440)`, i.e. 86400 seconds. -/
def check_betmap_status_tick (st : SysState) (now : Int) (devMode : Bool) :
    SysState × List TickEvent :=
  let threshold : Int := if devMode then now - 60 else now - 86400
  let q := qualifiedSetIds st threshold
  let acc := q.foldl tickSetStep (st, [], [])
  (acc.1, acc.2.2)

/-- Phase of one in-flight vote registration: before the redis `GET`, after
the `GET` (carrying what it saw), or finished (carrying whether the vote
was accepted). -/
inductive VotePhase where
  | ready
  | sawExisting (saw : Bool)
  | done (accepted : Bool)
deriving DecidableEq, Repr

/-- The redis interaction of one `api_vote_beatmap` registration, split at
its suspension points: line 457 reads `vote:{userid}:{set_id}`; only later
(line 526, after the rejection branch and further awaited queries) does the
`INCR` create the key.  Nothing between the two operations holds a lock. -/
def phaseStep (voter s : Nat) (votes : List (Nat × Nat)) :
    VotePhase → VotePhase × List (Nat × Nat)
  | .ready => (.sawExisting (decide ((voter, s) ∈ votes)), votes)
  | .sawExisting true => (.done false, votes)
  | .sawExisting false => (.done true, (voter, s) :: votes)
  | .done a => (.done a, votes)

/-- Two concurrent registration attempts for the same `(voter, set)` pair,
with the shared redis vote keys. -/
structure RacePair where
  votes : List (Nat × Nat)
  p1 : VotePhase
  p2 : VotePhase
deriving DecidableEq, Repr

/-- Run one step of the selected attempt (`false` = first, `true` =
second) against the shared store. -/
def raceStep (voter s : Nat) (st : RacePair) (which : Bool) : RacePair :=
  if which then
    { st with p2 := (phaseStep voter s st.votes st.p2).1,
              votes := (phaseStep voter s st.votes st.p2).2 }
  else
    { st with p1 := (phaseStep voter s st.votes st.p1).1,
              votes := (phaseStep voter s st.votes st.p1).2 }

/-- Run the two concurrent attempts under an interleaving schedule. -/
def raceRun (voter s : Nat) (sched : List Bool) (st : RacePair) : RacePair :=
  sched.foldl (raceStep voter s) st

/-- A one-row Pending set (set 7, status 0) with one prior vote by voter 99
and its fingerprint in the cache; user 10 (discord 12) holds the nominator
bit.  A vote by user 10 is the second distinct vote and reaches quorum. -/
def quorumSt : SysState :=
  { maps := [⟨1, 7, "a", 0, false, 0⟩],
    scores := [⟨100, "a"⟩],
    map_requests := [⟨50, 1⟩],
    users := [⟨10, 12, "u", false, true⟩],
    votes := [(99, 7)],
    cache := [("a", ⟨0, false⟩)] }

/-- Same scenario as `quorumSt`, named separately for the cache claim. -/
def quorumStC : SysState :=
  { maps := [⟨1, 7, "a", 0, false, 0⟩],
    scores := [⟨100, "a"⟩],
    map_requests := [⟨50, 1⟩],
    users := [⟨10, 12, "u", false, true⟩],
    votes := [(99, 7)],
    cache := [("a", ⟨0, false⟩)] }

/-- Same scenario again, named separately for the frozen-persistence claim. -/
def quorumStF : SysState :=
  { maps := [⟨1, 7, "a", 0, false, 0⟩],
    scores := [⟨100, "a"⟩],
    map_requests := [⟨50, 1⟩],
    users := [⟨10, 12, "u", false, true⟩],
    votes := [(99, 7)],
    cache := [("a", ⟨0, false⟩)] }

/-- A one-row Pending set with a NAT moderator (user 10, discord 12). -/
def pendingModSt : SysState :=
  { maps := [⟨1, 7, "a", 0, false, 0⟩],
    scores := [],
    map_requests := [⟨50, 1⟩],
    users := [⟨10, 12, "u", true, false⟩],
    votes := [],
    cache := [] }

/-- A one-row Pending set with a submitted score and a NAT moderator. -/
def pendingScoreSt : SysState :=
  { maps := [⟨1, 7, "a", 0, false, 0⟩],
    scores := [⟨100, "a"⟩],
    map_requests := [⟨50, 1⟩],
    users := [⟨10, 12, "u", true, false⟩],
    votes := [],
    cache := [] }

/-- One already-Ranked set and one already-Loved set, with a NAT moderator. -/
def finalizedSt : SysState :=
  { maps := [⟨1, 7, "a", 2, true, 0⟩, ⟨2, 8, "b", 5, true, 0⟩],
    scores := [],
    map_requests := [],
    users := [⟨10, 12, "u", true, false⟩],
    votes := [],
    cache := [] }

/-- A set with two sub-item rows, both Qualified long before the sweep, so
the sweep query returns the set-level id twice. -/
def dupRowsSt : SysState :=
  { maps := [⟨1, 7, "a", 4, false, 0⟩, ⟨2, 7, "b", 4, false, 0⟩],
    scores := [⟨100, "a"⟩, ⟨101, "b"⟩],
    map_requests := [⟨50, 1⟩],
    users := [],
    votes := [],
    cache := [("a", ⟨4, false⟩)] }

/-- Auth preamble shared by the moderator endpoints: present parameters, a
user found by discord id holding the NAT bit, and the matching api key. -/
abbrev ModOk (st : SysState) (d s : Nat) (k apiKey : String) (u : UserRow) : Prop :=
  d ≠ 0 ∧ s ≠ 0 ∧ k ≠ "" ∧ userByDiscord st d = some u ∧ u.isNAT = true ∧ k = apiKey

/-- Auth preamble of the vote endpoint (the nominator or the NAT bit
suffices there). -/
abbrev VoteOk (st : SysState) (d s : Nat) (k apiKey : String) (u : UserRow) : Prop :=
  d ≠ 0 ∧ s ≠ 0 ∧ k ≠ "" ∧ userByDiscord st d = some u
    ∧ (u.isNominator = true ∨ u.isNAT = true) ∧ k = apiKey

/-- The two successive set-wide UPDATEs of a moderator success branch
(status, then `change_date = now()`), fused into one row function. -/
def setWideUpd (s : Nat) (t : Int) (now : Int) (r : MapRow) : MapRow :=
  if r.set_id == s then { r with status := t, change_date := now } else r

/-- The state produced by the success branch shared by the three moderator
endpoints. -/
def modFinal (st : SysState) (s : Nat) (t : Int) (f : Bool) (now : Int) : SysState :=
  ((st.maps.map (setWideUpd s t now)).filter (fun r => r.set_id == s)).foldl
    (modRowStep t f) { st with maps := st.maps.map (setWideUpd s t now) }

/-- The two set-wide UPDATEs of the vote quorum branch (status 4, then
`change_date = now()`), fused into one row function. -/
def voteUpd (s : Nat) (now : Int) (r : MapRow) : MapRow :=
  if r.set_id == s then { r with status := 4, change_date := now } else r

/-- The state produced by the quorum branch of the vote endpoint for a
voter with no prior record: the redis delete at line 588 removes exactly
the key the call just created, so the vote keys end as they started. -/
def voteFinal (st : SysState) (s : Nat) (now : Int) : SysState :=
  ((st.maps.map (voteUpd s now)).filter (fun r => r.set_id == s)).foldl voteRowStep
    { st with maps := st.maps.map (voteUpd s now) }

/-- Witness state: a one-row Pending set (set 7) with a cached fingerprint,
a NAT moderator and one prior vote by voter 99. -/
def wModSt : SysState :=
  { maps := [⟨1, 7, "a", 0, false, 0⟩],
    scores := [⟨100, "a"⟩],
    map_requests := [⟨50, 1⟩],
    users := [⟨10, 12, "u", true, true⟩],
    votes := [(99, 7)],
    cache := [("a", ⟨0, false⟩)] }

/-- Witness state: as `wModSt` but the acting user (id 10) already holds a
vote record for set 7. -/
def wVotedSt : SysState :=
  { maps := [⟨1, 7, "a", 0, false, 0⟩],
    scores := [⟨100, "a"⟩],
    map_requests := [⟨50, 1⟩],
    users := [⟨10, 12, "u", true, true⟩],
    votes := [(10, 7)],
    cache := [("a", ⟨0, false⟩)] }

/-- Witness state for the scheduler claims: one Qualified one-row set whose
`change_date` is the epoch. -/
def wTickSt : SysState :=
  { maps := [⟨1, 7, "a", 4, false, 0⟩],
    scores := [⟨100, "a"⟩],
    map_requests := [⟨50, 1⟩],
    users := [],
    votes := [],
    cache := [] }

/-- C1: on the quorum-reaching vote the code persists status 4 but deletes
only the accepting voter's redis key (line 588 `redis.delete(vote_key)`),
so voter 99's record survives and the set's distinct-voter tally is 1
afterwards, not 0. -/
theorem C1_counterexample :
    (api_vote_beatmap quorumSt (some 12) (some 7) (some "k") "k" 1000).2
        = ApiResp.voteAccepted 2 0
    ∧ fetchStatus (api_vote_beatmap quorumSt (some 12) (some 7) (some "k") "k" 1000).1 7
        = some 4
    ∧ ((api_vote_beatmap quorumSt (some 12) (some 7) (some "k") "k" 1000).1.votes.filter
        (fun p => p.2 == 7)).length = 1 := by
  decide

/-- C2: after the vote-driven qualification the cache entry for the set's
fingerprint holds status 2 (lines 606–608) while the persisted status is 4
(line 584), so a reader of the cache observes a status different from the
persisted one immediately after the operation returns. -/
theorem C2_counterexample :
    cacheGet (api_vote_beatmap quorumStC (some 12) (some 7) (some "k") "k" 1000).1.cache "a"
        = some ⟨2, true⟩
    ∧ fetchStatus (api_vote_beatmap quorumStC (some 12) (some 7) (some "k") "k" 1000).1 7
        = some 4 := by
  decide

/-- C3: the vote-driven transition to Qualified persists status 4 but never
writes the `frozen` column (the only `UPDATE`s are lines 583–586 and
590–593, both status/change_date only), so the sub-item's persisted frozen
flag stays false. -/
theorem C3_counterexample :
    (api_vote_beatmap quorumStF (some 12) (some 7) (some "k") "k" 1000).2
        = ApiResp.voteAccepted 2 0
    ∧ (api_vote_beatmap quorumStF (some 12) (some 7) (some "k") "k" 1000).1.maps
        = [⟨1, 7, "a", 4, false, 1000⟩] := by
  decide

/-- C4: `api_cancel_beatmap` only rejects statuses (2, 3, 5) (line 1091),
so Cancel on a Pending set (status 0) is accepted and runs its success
branch instead of being rejected as an invalid transition. -/
theorem C4_counterexample :
    fetchStatus pendingModSt 7 = some 0
    ∧ (api_cancel_beatmap pendingModSt (some 12) (some 7) (some "k") "k" 1000).2
        = ApiResp.transitionDone := by
  decide

/-- C5: under the interleaving read-read-write-write, both of two identical
concurrent vote calls for the same `(voter, set)` pair see no existing key
at their `GET` and both reach the accepting `INCR`, so both are accepted —
not exactly one. -/
theorem C5_counterexample :
    (raceRun 5 7 [false, true, false, true] ⟨[], .ready, .ready⟩).p1
        = VotePhase.done true
    ∧ (raceRun 5 7 [false, true, false, true] ⟨[], .ready, .ready⟩).p2
        = VotePhase.done true := by
  decide

/-- C6: the moderator Rank action succeeds but leaves the `scores` table
untouched — its success branch (lines 947–1002) deletes `map_requests`
rows only; no score deletion appears in `api_rank_beatmap`. -/
theorem C6_counterexample :
    (api_rank_beatmap pendingScoreSt (some 12) (some 7) (some "k") "k" 1000).2
        = ApiResp.transitionDone
    ∧ (api_rank_beatmap pendingScoreSt (some 12) (some 7) (some "k") "k" 1000).1.scores
        = [⟨100, "a"⟩] := by
  decide

/-- C7: Rank on an already-Ranked set and Love on an already-Loved set are
both answered with the 403 "already ranked/loved/qualified" rejection
(status tuples at lines 915 and 742), not with a no-op success. -/
theorem C7_counterexample :
    (api_rank_beatmap finalizedSt (some 12) (some 7) (some "k") "k" 1000).2
        = ApiResp.alreadyStatused
    ∧ (api_love_beatmap finalizedSt (some 12) (some 8) (some "k") "k" 1000).2
        = ApiResp.alreadyStatused := by
  decide

/-- C9: in a single sweep over a set whose query result carries its id
twice, the set-wide status update is executed twice and each sub-item's
score purge is executed twice — only the Discord notification is guarded
by the `alreadyrank` list. -/
theorem C9_counterexample :
    ((check_betmap_status_tick dupRowsSt 100000 false).2.count (.statusUpdate 7)) = 2
    ∧ ((check_betmap_status_tick dupRowsSt 100000 false).2.count (.purgeScores "a")) = 2
    ∧ ((check_betmap_status_tick dupRowsSt 100000 false).2.count (.notify 7)) = 1 := by
  decide

theorem modRowStep_foldl (t : Int) (f : Bool) (L : List MapRow) (b : SysState) :
    (L.foldl (modRowStep t f) b).maps
        = b.maps.map (fun r => if r.id ∈ L.map MapRow.id then { r with status := t, frozen := f } else r)
    ∧ (L.foldl (modRowStep t f) b).cache
        = b.cache.map (fun p => if p.1 ∈ L.map MapRow.md5 then (p.1, ⟨t, f⟩) else p)
    ∧ (L.foldl (modRowStep t f) b).scores = b.scores
    ∧ (L.foldl (modRowStep t f) b).map_requests
        = b.map_requests.filter (fun q => !((L.map MapRow.id).contains q.map_id))
    ∧ (L.foldl (modRowStep t f) b).votes = b.votes
    ∧ (L.foldl (modRowStep t f) b).users = b.users := by
  induction L generalizing b with
  | nil => simp
  | cons a L ih =>
    obtain ⟨h1, h2, h3, h4, h5, h6⟩ := ih (modRowStep t f b a)
    refine ⟨?_, ?_, ?_, ?_, ?_, ?_⟩
    · rw [List.foldl_cons, h1]
      show (b.maps.map _).map _ = _
      rw [List.map_map]
      apply List.map_congr_left
      intro r _
      by_cases hid : r.id = a.id
      · simp [Function.comp, modRowStep, hid]
      · by_cases hmem : r.id ∈ L.map MapRow.id <;>
          simp [Function.comp, modRowStep, hid, hmem]
    · rw [List.foldl_cons, h2]
      show (cacheSet b.cache _ _).map _ = _
      rw [cacheSet, List.map_map]
      apply List.map_congr_left
      intro p _
      by_cases hmd : p.1 = a.md5
      · simp [Function.comp, hmd]
      · by_cases hmem : p.1 ∈ L.map MapRow.md5 <;>
          simp [Function.comp, hmd, hmem]
    · rw [List.foldl_cons, h3]
      rfl
    · rw [List.foldl_cons, h4]
      show (b.map_requests.filter _).filter _ = _
      rw [List.filter_filter]
      apply List.filter_congr
      intro q _
      by_cases hid : q.map_id = a.id <;>
        simp [hid, List.contains_cons]
    · rw [List.foldl_cons, h5]
      rfl
    · rw [List.foldl_cons, h6]
      rfl

theorem mapsTwo_eq (st : SysState) (s : Nat) (t : Int) (now : Int) :
    (st.maps.map (fun r => if r.set_id == s then { r with status := t } else r)).map
        (fun r => if r.set_id == s then { r with change_date := now } else r)
      = st.maps.map (setWideUpd s t now) := by
  rw [List.map_map]
  apply List.map_congr_left
  intro r _
  by_cases h : r.set_id = s <;> simp [Function.comp, setWideUpd, h]

theorem modAction_success_eq (st : SysState) (d s : Nat) (k apiKey : String) (now : Int)
    (rejects : List (Option Int)) (t : Int) (f : Bool) (u : UserRow)
    (hd : d ≠ 0) (hs : s ≠ 0) (hk : k ≠ "")
    (hu : userByDiscord st d = some u) (hnat : u.isNAT = true)
    (hkey : k = apiKey)
    (hstat : fetchStatus st s ∉ rejects)
    (hex : setExists st s) :
    modAction st (some d) (some s) (some k) apiKey now rejects t f
      = (modFinal st s t f now, .transitionDone) := by
  rw [modFinal]
  rw [modAction, if_neg]
  · simp only [Option.getD_some, hu]
    rw [if_neg (by simp [hnat]), if_neg (by simp [hkey]), if_neg hstat,
      if_neg (not_not_intro hex), mapsTwo_eq]
  · simp [natParamMissing, strParamMissing, hd, hs, hk]

theorem modFinal_maps (st : SysState) (s : Nat) (t : Int) (f : Bool) (now : Int) :
    ∀ r ∈ (modFinal st s t f now).maps, r.set_id = s →
      r.status = t ∧ r.frozen = f ∧ r.change_date = now := by
  intro r hr hset
  have h := (modRowStep_foldl t f
    ((st.maps.map (setWideUpd s t now)).filter (fun x => x.set_id == s))
    { st with maps := st.maps.map (setWideUpd s t now) }).1
  rw [modFinal, h] at hr
  simp only at hr
  rcases List.mem_map.mp hr with ⟨m, hm, hFm⟩
  rcases List.mem_map.mp hm with ⟨r0, hr0, hupd⟩
  by_cases hcase : r0.set_id = s
  · have hmrow : m = { r0 with status := t, change_date := now } := by
      rw [← hupd, setWideUpd, if_pos (by simp [hcase])]
    have hmem : m ∈ (st.maps.map (setWideUpd s t now)).filter (fun x => x.set_id == s) := by
      refine List.mem_filter.mpr ⟨hm, by simp [hmrow, hcase]⟩
    have hid : m.id ∈ ((st.maps.map (setWideUpd s t now)).filter
        (fun x => x.set_id == s)).map MapRow.id := List.mem_map.mpr ⟨m, hmem, rfl⟩
    rw [if_pos hid] at hFm
    rw [← hFm, hmrow]
    exact ⟨rfl, rfl, rfl⟩
  · have hmrow : m = r0 := by
      rw [← hupd, setWideUpd, if_neg (by simp [hcase])]
    exfalso
    apply hcase
    rw [← hset, ← hFm]
    by_cases hid : m.id ∈ ((st.maps.map (setWideUpd s t now)).filter
        (fun x => x.set_id == s)).map MapRow.id
    · rw [if_pos hid, hmrow]
    · rw [if_neg hid, hmrow]

theorem modFinal_scores (st : SysState) (s : Nat) (t : Int) (f : Bool) (now : Int) :
    (modFinal st s t f now).scores = st.scores := by
  have h := (modRowStep_foldl t f
    ((st.maps.map (setWideUpd s t now)).filter (fun x => x.set_id == s))
    { st with maps := st.maps.map (setWideUpd s t now) }).2.2.1
  rw [modFinal, h]

theorem modFinal_votes (st : SysState) (s : Nat) (t : Int) (f : Bool) (now : Int) :
    (modFinal st s t f now).votes = st.votes := by
  have h := (modRowStep_foldl t f
    ((st.maps.map (setWideUpd s t now)).filter (fun x => x.set_id == s))
    { st with maps := st.maps.map (setWideUpd s t now) }).2.2.2.2.1
  rw [modFinal, h]

theorem modFinal_cache (st : SysState) (s : Nat) (t : Int) (f : Bool) (now : Int) :
    ∀ r ∈ (modFinal st s t f now).maps, r.set_id = s →
      ∀ e, cacheGet (modFinal st s t f now).cache r.md5 = some e → e = ⟨t, f⟩ := by
  intro r hr hset e he
  have hmaps := (modRowStep_foldl t f
    ((st.maps.map (setWideUpd s t now)).filter (fun x => x.set_id == s))
    { st with maps := st.maps.map (setWideUpd s t now) }).1
  have hcache := (modRowStep_foldl t f
    ((st.maps.map (setWideUpd s t now)).filter (fun x => x.set_id == s))
    { st with maps := st.maps.map (setWideUpd s t now) }).2.1
  -- r.md5 is the md5 of a set row
  rw [modFinal, hmaps] at hr
  simp only at hr
  rcases List.mem_map.mp hr with ⟨m, hm, hFm⟩
  have hmd5 : r.md5 = m.md5 := by
    rw [← hFm]
    by_cases hid : m.id ∈ ((st.maps.map (setWideUpd s t now)).filter
        (fun x => x.set_id == s)).map MapRow.id
    · rw [if_pos hid]
    · rw [if_neg hid]
  have hsetm : m.set_id = s := by
    rw [← hset, ← hFm]
    by_cases hid : m.id ∈ ((st.maps.map (setWideUpd s t now)).filter
        (fun x => x.set_id == s)).map MapRow.id
    · rw [if_pos hid]
    · rw [if_neg hid]
  have hmrows : m ∈ (st.maps.map (setWideUpd s t now)).filter (fun x => x.set_id == s) :=
    List.mem_filter.mpr ⟨hm, by simp [hsetm]⟩
  have hmem5 : m.md5 ∈ ((st.maps.map (setWideUpd s t now)).filter
      (fun x => x.set_id == s)).map MapRow.md5 := List.mem_map.mpr ⟨m, hmrows, rfl⟩
  rw [modFinal, hcache] at he
  simp only at he
  rw [cacheGet] at he
  cases hfind : List.find? (fun p => p.1 == r.md5)
      (List.map (fun p => if p.1 ∈ ((st.maps.map (setWideUpd s t now)).filter
        (fun x => x.set_id == s)).map MapRow.md5 then (p.1, (⟨t, f⟩ : CacheEntry)) else p)
        st.cache) with
  | none => rw [hfind] at he; exact Option.noConfusion he
  | some p =>
      rw [hfind] at he
      simp only [Option.map_some'] at he
      have hkey : p.1 = r.md5 := by
        have := List.find?_some hfind
        simpa using this
      have hpmem := List.mem_of_find?_eq_some hfind
      rcases List.mem_map.mp hpmem with ⟨p0, _, hp0⟩
      have hp0key : p0.1 = p.1 := by
        rw [← hp0]
        by_cases hin : p0.1 ∈ ((st.maps.map (setWideUpd s t now)).filter
            (fun x => x.set_id == s)).map MapRow.md5
        · rw [if_pos hin]
        · rw [if_neg hin]
      have hin : p0.1 ∈ ((st.maps.map (setWideUpd s t now)).filter
          (fun x => x.set_id == s)).map MapRow.md5 := by
        rw [hp0key, hkey, hmd5]; exact hmem5
      rw [if_pos hin] at hp0
      injection he with h2
      rw [← h2, ← hp0]

theorem modFinal_requests (st : SysState) (s : Nat) (t : Int) (f : Bool) (now : Int) :
    ∀ q ∈ (modFinal st s t f now).map_requests,
      ∀ r ∈ st.maps, r.set_id = s → q.map_id ≠ r.id := by
  intro q hq r hr hset
  have h := (modRowStep_foldl t f
    ((st.maps.map (setWideUpd s t now)).filter (fun x => x.set_id == s))
    { st with maps := st.maps.map (setWideUpd s t now) }).2.2.2.1
  rw [modFinal, h] at hq
  simp only at hq
  have hpred := List.of_mem_filter hq
  have hrow : setWideUpd s t now r ∈ (st.maps.map (setWideUpd s t now)).filter
      (fun x => x.set_id == s) := by
    refine List.mem_filter.mpr ⟨List.mem_map.mpr ⟨r, hr, rfl⟩, ?_⟩
    rw [setWideUpd, if_pos (by simp [hset])]
    simp [hset]
  have hid : r.id ∈ ((st.maps.map (setWideUpd s t now)).filter
      (fun x => x.set_id == s)).map MapRow.id := by
    refine List.mem_map.mpr ⟨setWideUpd s t now r, hrow, ?_⟩
    rw [setWideUpd, if_pos (by simp [hset])]
  intro heq
  rw [heq] at hpred
  simp only [Bool.not_eq_true', List.contains, List.elem_eq_mem,
    decide_eq_false_iff_not] at hpred
  exact hpred hid

theorem modAction_reject (st : SysState) (d s : Nat) (k apiKey : String) (now : Int)
    (rejects : List (Option Int)) (t : Int) (f : Bool) (u : UserRow)
    (hd : d ≠ 0) (hs : s ≠ 0) (hk : k ≠ "")
    (hu : userByDiscord st d = some u) (hnat : u.isNAT = true)
    (hkey : k = apiKey)
    (hstat : fetchStatus st s ∈ rejects) :
    modAction st (some d) (some s) (some k) apiKey now rejects t f
      = (st, .alreadyStatused) := by
  rw [modAction, if_neg]
  · simp only [Option.getD_some, hu]
    rw [if_neg (by simp [hnat]), if_neg (by simp [hkey]), if_pos hstat]
  · simp [natParamMissing, strParamMissing, hd, hs, hk]

theorem setExists_of_fetchStatus (st : SysState) (s : Nat) (v : Int)
    (h : fetchStatus st s = some v) : setExists st s := by
  rw [fetchStatus] at h
  cases hf : st.maps.find? (fun r => r.set_id == s) with
  | none => rw [hf] at h; exact Option.noConfusion h
  | some r =>
    refine ⟨r, List.mem_of_find?_eq_some hf, ?_⟩
    have := List.find?_some hf
    simpa using this

theorem voteRowStep_foldl (L : List MapRow) (b : SysState) :
    (L.foldl voteRowStep b).maps = b.maps
    ∧ (L.foldl voteRowStep b).cache
        = b.cache.map (fun p => if p.1 ∈ L.map MapRow.md5 then (p.1, ⟨2, true⟩) else p)
    ∧ (L.foldl voteRowStep b).scores = b.scores
    ∧ (L.foldl voteRowStep b).map_requests
        = b.map_requests.filter (fun q => !((L.map MapRow.id).contains q.map_id))
    ∧ (L.foldl voteRowStep b).votes = b.votes
    ∧ (L.foldl voteRowStep b).users = b.users := by
  induction L generalizing b with
  | nil => simp
  | cons a L ih =>
    obtain ⟨h1, h2, h3, h4, h5, h6⟩ := ih (voteRowStep b a)
    refine ⟨?_, ?_, ?_, ?_, ?_, ?_⟩
    · rw [List.foldl_cons, h1]
      rfl
    · rw [List.foldl_cons, h2]
      show (cacheSet b.cache _ _).map _ = _
      rw [cacheSet, List.map_map]
      apply List.map_congr_left
      intro p _
      by_cases hmd : p.1 = a.md5
      · simp [Function.comp, hmd]
      · by_cases hmem : p.1 ∈ L.map MapRow.md5 <;>
          simp [Function.comp, hmd, hmem]
    · rw [List.foldl_cons, h3]
      rfl
    · rw [List.foldl_cons, h4]
      show (b.map_requests.filter _).filter _ = _
      rw [List.filter_filter]
      apply List.filter_congr
      intro q _
      by_cases hid : q.map_id = a.id <;>
        simp [hid, List.contains_cons]
    · rw [List.foldl_cons, h5]
      rfl
    · rw [List.foldl_cons, h6]
      rfl

theorem voteMapsTwo_eq (st : SysState) (s : Nat) (now : Int) :
    (st.maps.map (fun r => if r.set_id == s then { r with status := 4 } else r)).map
        (fun r => if r.set_id == s then { r with change_date := now } else r)
      = st.maps.map (voteUpd s now) := by
  rw [List.map_map]
  apply List.map_congr_left
  intro r _
  by_cases h : r.set_id = s <;> simp [Function.comp, voteUpd, h]

theorem votesFilter_eq (votes : List (Nat × Nat)) (pr : Nat × Nat)
    (hnv : pr ∉ votes) :
    ((pr :: votes).filter (fun p => p != pr)) = votes := by
  rw [List.filter_cons]
  simp only [bne_self_eq_false, Bool.false_eq_true, if_neg, ite_false]
  apply List.filter_eq_self.mpr
  intro a ha
  simp only [bne_iff_ne, ne_eq, decide_eq_true_eq]
  intro h
  exact hnv (h ▸ ha)

theorem api_vote_quorum_eq (st : SysState) (d s : Nat) (k apiKey : String) (now : Int)
    (u : UserRow)
    (hd : d ≠ 0) (hs : s ≠ 0) (hk : k ≠ "")
    (hu : userByDiscord st d = some u)
    (hauth : u.isNominator = true ∨ u.isNAT = true)
    (hkey : k = apiKey)
    (hstat : fetchStatus st s ∉ [some 2, some 3, some 4, some 5])
    (hnv : (u.id, s) ∉ st.votes)
    (hex : setExists st s)
    (hcnt : (st.votes.filter (fun p => p.2 == s)).length ≠ 0) :
    api_vote_beatmap st (some d) (some s) (some k) apiKey now
      = (voteFinal st s now,
         .voteAccepted ((st.votes.filter (fun p => p.2 == s)).length + 1) 0) := by
  rw [api_vote_beatmap, if_neg]
  · simp only [Option.getD_some, hu]
    rw [if_neg (not_not_intro hauth), if_neg (by simp [hkey]), if_neg hstat,
      if_neg hnv, if_neg (not_not_intro hex), if_neg (by omega),
      voteMapsTwo_eq, votesFilter_eq st.votes (u.id, s) hnv, voteFinal]
  · simp [natParamMissing, strParamMissing, hd, hs, hk]

theorem api_vote_already_eq (st : SysState) (d s : Nat) (k apiKey : String) (now : Int)
    (u : UserRow)
    (hd : d ≠ 0) (hs : s ≠ 0) (hk : k ≠ "")
    (hu : userByDiscord st d = some u)
    (hauth : u.isNominator = true ∨ u.isNAT = true)
    (hkey : k = apiKey)
    (hstat : fetchStatus st s ∉ [some 2, some 3, some 4, some 5])
    (hv : (u.id, s) ∈ st.votes) :
    api_vote_beatmap st (some d) (some s) (some k) apiKey now = (st, .alreadyVoted) := by
  rw [api_vote_beatmap, if_neg]
  · simp only [Option.getD_some, hu]
    rw [if_neg (not_not_intro hauth), if_neg (by simp [hkey]), if_neg hstat, if_pos hv]
  · simp [natParamMissing, strParamMissing, hd, hs, hk]

theorem voteFinal_maps (st : SysState) (s : Nat) (now : Int) :
    (voteFinal st s now).maps = st.maps.map (voteUpd s now) := by
  rw [voteFinal, (voteRowStep_foldl _ _).1]

theorem voteFinal_votes (st : SysState) (s : Nat) (now : Int) :
    (voteFinal st s now).votes = st.votes := by
  rw [voteFinal, (voteRowStep_foldl _ _).2.2.2.2.1]

theorem voteFinal_scores (st : SysState) (s : Nat) (now : Int) :
    (voteFinal st s now).scores = st.scores := by
  rw [voteFinal, (voteRowStep_foldl _ _).2.2.1]

theorem voteFinal_cache (st : SysState) (s : Nat) (now : Int) :
    ∀ r ∈ (voteFinal st s now).maps, r.set_id = s →
      ∀ e, cacheGet (voteFinal st s now).cache r.md5 = some e → e = ⟨2, true⟩ := by
  intro r hr hset e he
  have hmaps := (voteRowStep_foldl
    ((st.maps.map (voteUpd s now)).filter (fun x => x.set_id == s))
    { st with maps := st.maps.map (voteUpd s now) }).1
  have hcache := (voteRowStep_foldl
    ((st.maps.map (voteUpd s now)).filter (fun x => x.set_id == s))
    { st with maps := st.maps.map (voteUpd s now) }).2.1
  rw [voteFinal, hmaps] at hr
  simp only at hr
  have hmrows : r ∈ (st.maps.map (voteUpd s now)).filter (fun x => x.set_id == s) :=
    List.mem_filter.mpr ⟨hr, by simp [hset]⟩
  have hmem5 : r.md5 ∈ ((st.maps.map (voteUpd s now)).filter
      (fun x => x.set_id == s)).map MapRow.md5 := List.mem_map.mpr ⟨r, hmrows, rfl⟩
  rw [voteFinal, hcache] at he
  simp only at he
  rw [cacheGet] at he
  cases hfind : List.find? (fun p => p.1 == r.md5)
      (List.map (fun p => if p.1 ∈ ((st.maps.map (voteUpd s now)).filter
        (fun x => x.set_id == s)).map MapRow.md5 then (p.1, (⟨2, true⟩ : CacheEntry)) else p)
        st.cache) with
  | none => rw [hfind] at he; exact Option.noConfusion he
  | some p =>
      rw [hfind] at he
      simp only [Option.map_some'] at he
      have hkey2 : p.1 = r.md5 := by
        have := List.find?_some hfind
        simpa using this
      have hpmem := List.mem_of_find?_eq_some hfind
      rcases List.mem_map.mp hpmem with ⟨p0, _, hp0⟩
      have hp0key : p0.1 = p.1 := by
        rw [← hp0]
        by_cases hin : p0.1 ∈ ((st.maps.map (voteUpd s now)).filter
            (fun x => x.set_id == s)).map MapRow.md5
        · rw [if_pos hin]
        · rw [if_neg hin]
      have hin : p0.1 ∈ ((st.maps.map (voteUpd s now)).filter
          (fun x => x.set_id == s)).map MapRow.md5 := by
        rw [hp0key, hkey2]; exact hmem5
      rw [if_pos hin] at hp0
      injection he with h2
      rw [← h2, ← hp0]

theorem tickRowStep_foldl (L : List MapRow) (b : SysState) (ev : List TickEvent) :
    (L.foldl tickRowStep (b, ev)).1.maps = b.maps
    ∧ (L.foldl tickRowStep (b, ev)).1.cache
        = b.cache.map (fun p => if p.1 ∈ L.map MapRow.md5 then (p.1, ⟨2, true⟩) else p)
    ∧ (L.foldl tickRowStep (b, ev)).1.scores
        = b.scores.filter (fun sc => !((L.map MapRow.md5).contains sc.map_md5))
    ∧ (L.foldl tickRowStep (b, ev)).1.map_requests
        = b.map_requests.filter (fun q => !((L.map MapRow.id).contains q.map_id))
    ∧ (L.foldl tickRowStep (b, ev)).1.votes = b.votes
    ∧ (L.foldl tickRowStep (b, ev)).1.users = b.users
    ∧ ∀ n, ((L.foldl tickRowStep (b, ev)).2.count (TickEvent.statusUpdate n)
          = ev.count (TickEvent.statusUpdate n)
        ∧ (L.foldl tickRowStep (b, ev)).2.count (TickEvent.notify n)
          = ev.count (TickEvent.notify n)) := by
  induction L generalizing b ev with
  | nil => simp
  | cons a L ih =>
    obtain ⟨h1, h2, h3, h4, h5, h6, h7⟩ :=
      ih (tickRowStep (b, ev) a).1 (tickRowStep (b, ev) a).2
    refine ⟨?_, ?_, ?_, ?_, ?_, ?_, ?_⟩
    · rw [List.foldl_cons, h1]
      rfl
    · rw [List.foldl_cons, h2]
      show (cacheSet b.cache _ _).map _ = _
      rw [cacheSet, List.map_map]
      apply List.map_congr_left
      intro p _
      by_cases hmd : p.1 = a.md5
      · simp [Function.comp, hmd]
      · by_cases hmem : p.1 ∈ L.map MapRow.md5 <;>
          simp [Function.comp, hmd, hmem]
    · rw [List.foldl_cons, h3]
      show (b.scores.filter _).filter _ = _
      rw [List.filter_filter]
      apply List.filter_congr
      intro sc _
      by_cases hmd : sc.map_md5 = a.md5 <;>
        simp [hmd, List.contains_cons]
    · rw [List.foldl_cons, h4]
      show (b.map_requests.filter _).filter _ = _
      rw [List.filter_filter]
      apply List.filter_congr
      intro q _
      by_cases hid : q.map_id = a.id <;>
        simp [hid, List.contains_cons]
    · rw [List.foldl_cons, h5]
      rfl
    · rw [List.foldl_cons, h6]
      rfl
    · intro n
      obtain ⟨c1, c2⟩ := h7 n
      rw [List.foldl_cons]
      constructor
      · rw [c1]
        show (ev ++ [_, _, _]).count _ = _
        rw [List.count_append]
        rfl
      · rw [c2]
        show (ev ++ [_, _, _]).count _ = _
        rw [List.count_append]
        rfl

theorem tickUpd_fields (a : Nat) (r : MapRow) :
    (if r.set_id == a then { r with status := 2 } else r).set_id = r.set_id
    ∧ (if r.set_id == a then { r with status := 2 } else r).md5 = r.md5
    ∧ (if r.set_id == a then { r with status := 2 } else r).id = r.id := by
  by_cases h : r.set_id = a <;> simp [h]

theorem exists_tickUpd_md5_iff (maps : List MapRow) (a : Nat) (S : List Nat) (x : String) :
    (∃ r ∈ maps.map (fun r => if r.set_id == a then { r with status := 2 } else r),
        r.set_id ∈ S ∧ r.md5 = x)
      ↔ ∃ r ∈ maps, r.set_id ∈ S ∧ r.md5 = x := by
  constructor
  · rintro ⟨r, hr, hP⟩
    rcases List.mem_map.mp hr with ⟨r0, hr0, rfl⟩
    refine ⟨r0, hr0, ?_⟩
    rcases tickUpd_fields a r0 with ⟨f1, f2, f3⟩
    rwa [f1, f2] at hP
  · rintro ⟨r0, hr0, hP⟩
    refine ⟨_, List.mem_map.mpr ⟨r0, hr0, rfl⟩, ?_⟩
    rcases tickUpd_fields a r0 with ⟨f1, f2, f3⟩
    rw [f1, f2]
    exact hP

theorem exists_tickUpd_id_iff (maps : List MapRow) (a : Nat) (S : List Nat) (x : Nat) :
    (∃ r ∈ maps.map (fun r => if r.set_id == a then { r with status := 2 } else r),
        r.set_id ∈ S ∧ r.id = x)
      ↔ ∃ r ∈ maps, r.set_id ∈ S ∧ r.id = x := by
  constructor
  · rintro ⟨r, hr, hP⟩
    rcases List.mem_map.mp hr with ⟨r0, hr0, rfl⟩
    refine ⟨r0, hr0, ?_⟩
    rcases tickUpd_fields a r0 with ⟨f1, f2, f3⟩
    rwa [f1, f3] at hP
  · rintro ⟨r0, hr0, hP⟩
    refine ⟨_, List.mem_map.mpr ⟨r0, hr0, rfl⟩, ?_⟩
    rcases tickUpd_fields a r0 with ⟨f1, f2, f3⟩
    rw [f1, f3]
    exact hP

theorem rows_md5_eq (maps : List MapRow) (a : Nat) :
    (((maps.map (fun r => if r.set_id == a then { r with status := 2 } else r))).filter
        (fun r => r.set_id == a)).map MapRow.md5
      = (maps.filter (fun r => r.set_id == a)).map MapRow.md5 := by
  induction maps with
  | nil => rfl
  | cons r maps ih =>
    rcases tickUpd_fields a r with ⟨f1, f2, f3⟩
    by_cases h : r.set_id = a
    · simp only [List.map_cons, List.filter_cons, f1, h, beq_self_eq_true, if_pos, ite_true,
        List.map_cons, f2, ih]
    · simp only [List.map_cons, List.filter_cons, f1]
      rw [if_neg (by simpa using h), if_neg (by simpa using h), ih]

theorem rows_id_eq (maps : List MapRow) (a : Nat) :
    (((maps.map (fun r => if r.set_id == a then { r with status := 2 } else r))).filter
        (fun r => r.set_id == a)).map MapRow.id
      = (maps.filter (fun r => r.set_id == a)).map MapRow.id := by
  induction maps with
  | nil => rfl
  | cons r maps ih =>
    rcases tickUpd_fields a r with ⟨f1, f2, f3⟩
    by_cases h : r.set_id = a
    · simp only [List.map_cons, List.filter_cons, f1, h, beq_self_eq_true, if_pos, ite_true,
        List.map_cons, f3, ih]
    · simp only [List.map_cons, List.filter_cons, f1]
      rw [if_neg (by simpa using h), if_neg (by simpa using h), ih]

theorem mem_set_md5_iff (maps : List MapRow) (a : Nat) (x : String) :
    x ∈ (maps.filter (fun r => r.set_id == a)).map MapRow.md5
      ↔ ∃ r ∈ maps, r.set_id = a ∧ r.md5 = x := by
  constructor
  · intro hx
    rcases List.mem_map.mp hx with ⟨r, hr, rfl⟩
    have hmem := List.mem_of_mem_filter hr
    have hset : r.set_id = a := by simpa using List.of_mem_filter hr
    exact ⟨r, hmem, hset, rfl⟩
  · rintro ⟨r, hr, hset, rfl⟩
    exact List.mem_map.mpr ⟨r, List.mem_filter.mpr ⟨hr, by simp [hset]⟩, rfl⟩

theorem mem_set_id_iff (maps : List MapRow) (a : Nat) (x : Nat) :
    x ∈ (maps.filter (fun r => r.set_id == a)).map MapRow.id
      ↔ ∃ r ∈ maps, r.set_id = a ∧ r.id = x := by
  constructor
  · intro hx
    rcases List.mem_map.mp hx with ⟨r, hr, rfl⟩
    have hmem := List.mem_of_mem_filter hr
    have hset : r.set_id = a := by simpa using List.of_mem_filter hr
    exact ⟨r, hmem, hset, rfl⟩
  · rintro ⟨r, hr, hset, rfl⟩
    exact List.mem_map.mpr ⟨r, List.mem_filter.mpr ⟨hr, by simp [hset]⟩, rfl⟩

theorem not_contains_eq_decideN (l : List Nat) (x : Nat) :
    (!(l.contains x)) = decide (¬ x ∈ l) := by
  by_cases h : x ∈ l <;> simp [h]

theorem not_contains_eq_decideS (l : List String) (x : String) :
    (!(l.contains x)) = decide (¬ x ∈ l) := by
  by_cases h : x ∈ l <;> simp [h]

theorem tickSetStep_one (acc : SysState × List Nat × List TickEvent) (a : Nat) :
    (tickSetStep acc a).1.maps
        = acc.1.maps.map (fun r => if r.set_id == a then { r with status := 2 } else r)
    ∧ (tickSetStep acc a).1.scores
        = acc.1.scores.filter (fun sc =>
            !(((acc.1.maps.filter (fun r => r.set_id == a)).map MapRow.md5).contains sc.map_md5))
    ∧ (tickSetStep acc a).1.map_requests
        = acc.1.map_requests.filter (fun q =>
            !(((acc.1.maps.filter (fun r => r.set_id == a)).map MapRow.id).contains q.map_id))
    ∧ (tickSetStep acc a).1.cache
        = acc.1.cache.map (fun p =>
            if p.1 ∈ (acc.1.maps.filter (fun r => r.set_id == a)).map MapRow.md5
            then (p.1, ⟨2, true⟩) else p)
    ∧ (tickSetStep acc a).1.votes = acc.1.votes
    ∧ (tickSetStep acc a).1.users = acc.1.users := by
  obtain ⟨h1, h2, h3, h4, h5, h6, _⟩ := tickRowStep_foldl
    ((acc.1.maps.map
        (fun r => if r.set_id == a then { r with status := 2 } else r)).filter
      (fun r => r.set_id == a))
    { acc.1 with
      maps := acc.1.maps.map
        (fun r => if r.set_id == a then { r with status := 2 } else r) }
    ((if a ∈ acc.2.1 then (acc.2.1, acc.2.2 ++ [.statusUpdate a])
      else (acc.2.1 ++ [a], acc.2.2 ++ [.statusUpdate a] ++ [.notify a])).2)
  refine ⟨?_, ?_, ?_, ?_, ?_, ?_⟩
  · exact h1
  · rw [show (tickSetStep acc a).1.scores = _ from h3, rows_md5_eq]
  · rw [show (tickSetStep acc a).1.map_requests = _ from h4, rows_id_eq]
  · rw [show (tickSetStep acc a).1.cache = _ from h2, rows_md5_eq]
  · exact h5
  · exact h6

theorem tickSetStep_foldl_state (sids : List Nat) :
    ∀ acc : SysState × List Nat × List TickEvent,
      (sids.foldl tickSetStep acc).1.maps
          = acc.1.maps.map (fun r => if r.set_id ∈ sids then { r with status := 2 } else r)
      ∧ (sids.foldl tickSetStep acc).1.scores
          = acc.1.scores.filter (fun sc =>
              decide (¬ ∃ r ∈ acc.1.maps, r.set_id ∈ sids ∧ r.md5 = sc.map_md5))
      ∧ (sids.foldl tickSetStep acc).1.map_requests
          = acc.1.map_requests.filter (fun q =>
              decide (¬ ∃ r ∈ acc.1.maps, r.set_id ∈ sids ∧ r.id = q.map_id))
      ∧ (sids.foldl tickSetStep acc).1.cache
          = acc.1.cache.map (fun p =>
              if ∃ r ∈ acc.1.maps, r.set_id ∈ sids ∧ r.md5 = p.1 then (p.1, ⟨2, true⟩) else p)
      ∧ (sids.foldl tickSetStep acc).1.votes = acc.1.votes
      ∧ (sids.foldl tickSetStep acc).1.users = acc.1.users := by
  induction sids with
  | nil =>
    intro acc
    simp
  | cons a sids ih =>
    intro acc
    rw [List.foldl_cons]
    obtain ⟨i1, i2, i3, i4, i5, i6⟩ := ih (tickSetStep acc a)
    obtain ⟨s1, s2, s3, s4, s5, s6⟩ := tickSetStep_one acc a
    refine ⟨?_, ?_, ?_, ?_, ?_, ?_⟩
    · rw [i1, s1, List.map_map]
      apply List.map_congr_left
      intro r _
      by_cases h : r.set_id = a
      · by_cases hmem : r.set_id ∈ sids <;>
          simp [Function.comp, h, hmem, List.mem_cons]
      · by_cases hmem : r.set_id ∈ sids <;>
          simp [Function.comp, h, hmem, List.mem_cons]
    · rw [i2, s2, s1, List.filter_filter]
      apply List.filter_congr
      intro sc _
      simp only [exists_tickUpd_md5_iff]
      rw [not_contains_eq_decideS, ← Bool.decide_and]
      apply decide_eq_decide.mpr
      rw [mem_set_md5_iff]
      constructor
      · rintro ⟨hns, hna⟩ ⟨r, hr, hmem, hmd⟩
        rcases List.mem_cons.mp hmem with h | h
        · exact hna ⟨r, hr, h, hmd⟩
        · exact hns ⟨r, hr, h, hmd⟩
      · intro hn
        constructor
        · rintro ⟨r, hr, hset, hmd⟩
          exact hn ⟨r, hr, List.mem_cons.mpr (Or.inr hset), hmd⟩
        · rintro ⟨r, hr, hset, hmd⟩
          exact hn ⟨r, hr, List.mem_cons.mpr (Or.inl hset), hmd⟩
    · rw [i3, s3, s1, List.filter_filter]
      apply List.filter_congr
      intro q _
      simp only [exists_tickUpd_id_iff]
      rw [not_contains_eq_decideN, ← Bool.decide_and]
      apply decide_eq_decide.mpr
      rw [mem_set_id_iff]
      constructor
      · rintro ⟨hns, hna⟩ ⟨r, hr, hmem, hmd⟩
        rcases List.mem_cons.mp hmem with h | h
        · exact hna ⟨r, hr, h, hmd⟩
        · exact hns ⟨r, hr, h, hmd⟩
      · intro hn
        constructor
        · rintro ⟨r, hr, hset, hmd⟩
          exact hn ⟨r, hr, List.mem_cons.mpr (Or.inr hset), hmd⟩
        · rintro ⟨r, hr, hset, hmd⟩
          exact hn ⟨r, hr, List.mem_cons.mpr (Or.inl hset), hmd⟩
    · rw [i4, s4, s1, List.map_map]
      apply List.map_congr_left
      intro p _
      simp only [exists_tickUpd_md5_iff, Function.comp]
      by_cases hA : p.1 ∈ (acc.1.maps.filter (fun r => r.set_id == a)).map MapRow.md5
      · rw [if_pos hA]
        have hC : ∃ r ∈ acc.1.maps, r.set_id ∈ a :: sids ∧ r.md5 = p.1 := by
          rcases (mem_set_md5_iff _ _ _).mp hA with ⟨r, hr, hset, hmd⟩
          exact ⟨r, hr, List.mem_cons.mpr (Or.inl hset), hmd⟩
        rw [if_pos hC]
        by_cases hB : ∃ r ∈ acc.1.maps, r.set_id ∈ sids ∧ r.md5 = (p.1, (⟨2, true⟩ : CacheEntry)).1
        · rw [if_pos hB]
        · rw [if_neg hB]
      · rw [if_neg hA]
        by_cases hB : ∃ r ∈ acc.1.maps, r.set_id ∈ sids ∧ r.md5 = p.1
        · rw [if_pos hB]
          have hC : ∃ r ∈ acc.1.maps, r.set_id ∈ a :: sids ∧ r.md5 = p.1 := by
            rcases hB with ⟨r, hr, hset, hmd⟩
            exact ⟨r, hr, List.mem_cons.mpr (Or.inr hset), hmd⟩
          rw [if_pos hC]
        · rw [if_neg hB]
          have hC : ¬ ∃ r ∈ acc.1.maps, r.set_id ∈ a :: sids ∧ r.md5 = p.1 := by
            rintro ⟨r, hr, hmem, hmd⟩
            rcases List.mem_cons.mp hmem with h | h
            · exact hA ((mem_set_md5_iff _ _ _).mpr ⟨r, hr, h, hmd⟩)
            · exact hB ⟨r, hr, h, hmd⟩
          rw [if_neg hC]
    · rw [i5, s5]
    · rw [i6, s6]

theorem beq_statusUpdate_statusUpdate (a n : Nat) :
    (TickEvent.statusUpdate a == TickEvent.statusUpdate n) = (a == n) := rfl

theorem beq_statusUpdate_notify (a n : Nat) :
    (TickEvent.statusUpdate a == TickEvent.notify n) = false := rfl

theorem beq_notify_statusUpdate (a n : Nat) :
    (TickEvent.notify a == TickEvent.statusUpdate n) = false := rfl

theorem beq_notify_notify (a n : Nat) :
    (TickEvent.notify a == TickEvent.notify n) = (a == n) := rfl

theorem tickSetStep_one_events (acc : SysState × List Nat × List TickEvent) (a n : Nat) :
    (tickSetStep acc a).2.2.count (TickEvent.statusUpdate n)
        = acc.2.2.count (TickEvent.statusUpdate n) + (if n = a then 1 else 0)
    ∧ (tickSetStep acc a).2.2.count (TickEvent.notify n)
        = acc.2.2.count (TickEvent.notify n) + (if n = a ∧ a ∉ acc.2.1 then 1 else 0)
    ∧ (tickSetStep acc a).2.1 = (if a ∈ acc.2.1 then acc.2.1 else acc.2.1 ++ [a]) := by
  by_cases hal : a ∈ acc.2.1
  · obtain ⟨_, _, _, _, _, _, hc⟩ := tickRowStep_foldl
      ((acc.1.maps.map
          (fun r => if r.set_id == a then { r with status := 2 } else r)).filter
        (fun r => r.set_id == a))
      { acc.1 with
        maps := acc.1.maps.map
          (fun r => if r.set_id == a then { r with status := 2 } else r) }
      (acc.2.2 ++ [.statusUpdate a])
    have hstep : (tickSetStep acc a).2.2
        = (((acc.1.maps.map
            (fun r => if r.set_id == a then { r with status := 2 } else r)).filter
          (fun r => r.set_id == a)).foldl tickRowStep
          ({ acc.1 with
             maps := acc.1.maps.map
               (fun r => if r.set_id == a then { r with status := 2 } else r) },
           acc.2.2 ++ [.statusUpdate a])).2 := by
      rw [tickSetStep]
      simp only [if_pos hal]
    have hal2 : (tickSetStep acc a).2.1 = acc.2.1 := by
      rw [tickSetStep]
      simp only [if_pos hal]
    obtain ⟨c1, c2⟩ := hc n
    refine ⟨?_, ?_, ?_⟩
    · rw [hstep, c1, List.count_append]
      by_cases hna : n = a
      · subst hna
        simp [List.count_cons, beq_statusUpdate_statusUpdate]
      · simp [List.count_cons, beq_statusUpdate_statusUpdate, hna, Ne.symm hna]
    · rw [hstep, c2, List.count_append]
      simp [List.count_cons, beq_statusUpdate_notify, hal]
    · rw [hal2, if_pos hal]
  · obtain ⟨_, _, _, _, _, _, hc⟩ := tickRowStep_foldl
      ((acc.1.maps.map
          (fun r => if r.set_id == a then { r with status := 2 } else r)).filter
        (fun r => r.set_id == a))
      { acc.1 with
        maps := acc.1.maps.map
          (fun r => if r.set_id == a then { r with status := 2 } else r) }
      (acc.2.2 ++ [.statusUpdate a] ++ [.notify a])
    have hstep : (tickSetStep acc a).2.2
        = (((acc.1.maps.map
            (fun r => if r.set_id == a then { r with status := 2 } else r)).filter
          (fun r => r.set_id == a)).foldl tickRowStep
          ({ acc.1 with
             maps := acc.1.maps.map
               (fun r => if r.set_id == a then { r with status := 2 } else r) },
           acc.2.2 ++ [.statusUpdate a] ++ [.notify a])).2 := by
      rw [tickSetStep]
      simp only [if_neg hal]
    have hal2 : (tickSetStep acc a).2.1 = acc.2.1 ++ [a] := by
      rw [tickSetStep]
      simp only [if_neg hal]
    obtain ⟨c1, c2⟩ := hc n
    refine ⟨?_, ?_, ?_⟩
    · rw [hstep, c1, List.count_append, List.count_append]
      by_cases hna : n = a
      · subst hna
        simp [List.count_cons, beq_statusUpdate_statusUpdate, beq_notify_statusUpdate]
      · simp [List.count_cons, beq_statusUpdate_statusUpdate, beq_notify_statusUpdate,
          hna, Ne.symm hna]
    · rw [hstep, c2, List.count_append, List.count_append]
      by_cases hna : n = a
      · subst hna
        simp [List.count_cons, beq_statusUpdate_notify, beq_notify_notify, hal]
      · simp [List.count_cons, beq_statusUpdate_notify, beq_notify_notify,
          hna, Ne.symm hna]
    · rw [hal2, if_neg hal]

theorem tickSetStep_foldl_statusCount (sids : List Nat) :
    ∀ (acc : SysState × List Nat × List TickEvent) (n : Nat),
      (sids.foldl tickSetStep acc).2.2.count (TickEvent.statusUpdate n)
        = acc.2.2.count (TickEvent.statusUpdate n) + sids.count n := by
  induction sids with
  | nil =>
    intro acc n
    simp
  | cons a sids ih =>
    intro acc n
    rw [List.foldl_cons, ih (tickSetStep acc a) n,
      (tickSetStep_one_events acc a n).1, List.count_cons]
    by_cases hna : n = a
    · subst hna
      simp
      omega
    · simp [hna, Ne.symm hna]

theorem tickSetStep_foldl_notifyCount (sids : List Nat) :
    ∀ (acc : SysState × List Nat × List TickEvent) (n : Nat),
      (sids.foldl tickSetStep acc).2.2.count (TickEvent.notify n)
        = acc.2.2.count (TickEvent.notify n)
          + (if n ∈ sids ∧ n ∉ acc.2.1 then 1 else 0) := by
  induction sids with
  | nil =>
    intro acc n
    simp
  | cons a sids ih =>
    intro acc n
    rw [List.foldl_cons, ih (tickSetStep acc a) n,
      (tickSetStep_one_events acc a n).2.1, (tickSetStep_one_events acc a n).2.2]
    by_cases hna : n = a
    · subst hna
      by_cases hal : n ∈ acc.2.1
      · simp [hal]
      · by_cases hmem : n ∈ sids <;>
          simp [hal, hmem, List.mem_append, List.mem_cons]
    · by_cases hal : a ∈ acc.2.1
      · simp [hna, hal, List.mem_cons]
      · by_cases hnal : n ∈ acc.2.1 <;>
          by_cases hmem : n ∈ sids <;>
            simp [hna, hal, hnal, hmem, List.mem_append, List.mem_cons]

theorem mem_qualifiedSetIds (st : SysState) (threshold : Int) (sid : Nat) :
    sid ∈ qualifiedSetIds st threshold
      ↔ ∃ r ∈ st.maps, r.set_id = sid ∧ r.status = 4 ∧ r.change_date < threshold := by
  rw [qualifiedSetIds]
  constructor
  · intro h
    rcases List.mem_map.mp h with ⟨r, hr, rfl⟩
    have hmem := List.mem_of_mem_filter hr
    have hp := List.of_mem_filter hr
    simp only [Bool.and_eq_true, beq_iff_eq, decide_eq_true_eq] at hp
    exact ⟨r, hmem, rfl, hp.1, hp.2⟩
  · rintro ⟨r, hr, rfl, h4, hd⟩
    exact List.mem_map.mpr ⟨r, List.mem_filter.mpr ⟨hr, by simp [h4, hd]⟩, rfl⟩

theorem tick_def (st : SysState) (now : Int) (devMode : Bool) :
    check_betmap_status_tick st now devMode
      = (((qualifiedSetIds st (if devMode then now - 60 else now - 86400)).foldl
            tickSetStep (st, ([] : List Nat), ([] : List TickEvent))).1,
         ((qualifiedSetIds st (if devMode then now - 60 else now - 86400)).foldl
            tickSetStep (st, ([] : List Nat), ([] : List TickEvent))).2.2) := rfl

/-- C10: with `set_id = 0` — accepted by the declared `ge=0` validation
range — each of the four lifecycle endpoints answers 400 "Missing required
parameters!" (the truthiness guard treats 0 as absent) and returns the
state unchanged, whatever the other parameters are. -/
theorem C10_zero_set_id (st : SysState) (did : Option Nat) (key : Option String)
    (apiKey : String) (now : Int) :
    api_vote_beatmap st did (some 0) key apiKey now = (st, .missingParams)
    ∧ api_love_beatmap st did (some 0) key apiKey now = (st, .missingParams)
    ∧ api_rank_beatmap st did (some 0) key apiKey now = (st, .missingParams)
    ∧ api_cancel_beatmap st did (some 0) key apiKey now = (st, .missingParams) := by
  have hmiss : natParamMissing did ∨ natParamMissing (some 0) ∨ strParamMissing key :=
    Or.inr (Or.inl rfl)
  refine ⟨?_, ?_, ?_, ?_⟩
  · rw [api_vote_beatmap, if_pos hmiss]
  · rw [api_love_beatmap, modAction, if_pos hmiss]
  · rw [api_rank_beatmap, modAction, if_pos hmiss]
  · rw [api_cancel_beatmap, modAction, if_pos hmiss]

/-- C7 (amended): re-invoking a transition whose target equals the current
status is *rejected* with the 403 "already ranked/loved/qualified" error
and no state change — not a no-op success: Rank on a Ranked set (status 2)
and Love on a Loved set (status 5) both hit the up-front status-tuple
rejection. -/
theorem C7_retarget_rejected (st : SysState) (d s : Nat) (k apiKey : String)
    (now : Int) (u : UserRow) (hok : ModOk st d s k apiKey u) :
    (fetchStatus st s = some 2 →
      api_rank_beatmap st (some d) (some s) (some k) apiKey now = (st, .alreadyStatused))
    ∧ (fetchStatus st s = some 5 →
      api_love_beatmap st (some d) (some s) (some k) apiKey now = (st, .alreadyStatused)) := by
  obtain ⟨hd, hs, hk, hu, hnat, hkey⟩ := hok
  constructor
  · intro h2
    rw [api_rank_beatmap]
    exact modAction_reject st d s k apiKey now _ 2 true u hd hs hk hu hnat hkey
      (by rw [h2]; decide)
  · intro h5
    rw [api_love_beatmap]
    exact modAction_reject st d s k apiKey now _ 5 true u hd hs hk hu hnat hkey
      (by rw [h5]; decide)

/-- C7 witness: on the concrete finalized sets, Rank on set 7 (Ranked) and
Love on set 8 (Loved) are rejected with no state change. -/
theorem C7_retarget_rejected_witness :
    api_rank_beatmap finalizedSt (some 12) (some 7) (some "k") "k" 1000
        = (finalizedSt, .alreadyStatused)
    ∧ api_love_beatmap finalizedSt (some 12) (some 8) (some "k") "k" 1000
        = (finalizedSt, .alreadyStatused) :=
  ⟨(C7_retarget_rejected finalizedSt 12 7 "k" "k" 1000 ⟨10, 12, "u", true, false⟩
      (by decide)).1 (by decide),
   (C7_retarget_rejected finalizedSt 12 8 "k" "k" 1000 ⟨10, 12, "u", true, false⟩
      (by decide)).2 (by decide)⟩

/-- C4 (amended): the moderator endpoints reject exactly the statuses in
their hard-coded tuples, leaving the store unchanged on rejection: Cancel
rejects {2, 3, 5} — so Cancel on a Ranked set is rejected but Cancel on a
Pending set (status 0) is accepted and runs its success branch — and Rank
rejects {2, 4, 5}, so Rank on a Loved set is rejected. -/
theorem C4_transition_table (st : SysState) (d s : Nat) (k apiKey : String)
    (now : Int) (u : UserRow) (v : Int)
    (hok : ModOk st d s k apiKey u)
    (hv : fetchStatus st s = some v) :
    ((api_cancel_beatmap st (some d) (some s) (some k) apiKey now).2
        = if v = 2 ∨ v = 3 ∨ v = 5 then ApiResp.alreadyStatused else ApiResp.transitionDone)
    ∧ ((v = 2 ∨ v = 3 ∨ v = 5) →
        (api_cancel_beatmap st (some d) (some s) (some k) apiKey now).1 = st)
    ∧ ((api_rank_beatmap st (some d) (some s) (some k) apiKey now).2
        = if v = 2 ∨ v = 4 ∨ v = 5 then ApiResp.alreadyStatused else ApiResp.transitionDone)
    ∧ ((v = 2 ∨ v = 4 ∨ v = 5) →
        (api_rank_beatmap st (some d) (some s) (some k) apiKey now).1 = st) := by
  obtain ⟨hd, hs, hk, hu, hnat, hkey⟩ := hok
  have hex := setExists_of_fetchStatus st s v hv
  refine ⟨?_, ?_, ?_, ?_⟩
  · by_cases hc : v = 2 ∨ v = 3 ∨ v = 5
    · rw [if_pos hc, api_cancel_beatmap,
        modAction_reject st d s k apiKey now _ 0 false u hd hs hk hu hnat hkey
          (by rw [hv]; simpa using hc)]
    · rw [if_neg hc, api_cancel_beatmap,
        modAction_success_eq st d s k apiKey now _ 0 false u hd hs hk hu hnat hkey
          (by rw [hv]; simpa using hc) hex]
  · intro hc
    rw [api_cancel_beatmap,
      modAction_reject st d s k apiKey now _ 0 false u hd hs hk hu hnat hkey
        (by rw [hv]; simpa using hc)]
  · by_cases hc : v = 2 ∨ v = 4 ∨ v = 5
    · rw [if_pos hc, api_rank_beatmap,
        modAction_reject st d s k apiKey now _ 2 true u hd hs hk hu hnat hkey
          (by rw [hv]; simpa using hc)]
    · rw [if_neg hc, api_rank_beatmap,
        modAction_success_eq st d s k apiKey now _ 2 true u hd hs hk hu hnat hkey
          (by rw [hv]; simpa using hc) hex]
  · intro hc
    rw [api_rank_beatmap,
      modAction_reject st d s k apiKey now _ 2 true u hd hs hk hu hnat hkey
        (by rw [hv]; simpa using hc)]

/-- C4 witness: on the concrete Pending set, Cancel is accepted (the claim
predicted rejection) and the same run through Rank also succeeds. -/
theorem C4_transition_table_witness :
    (api_cancel_beatmap pendingModSt (some 12) (some 7) (some "k") "k" 1000).2
        = ApiResp.transitionDone :=
  (C4_transition_table pendingModSt 12 7 "k" "k" 1000 ⟨10, 12, "u", true, false⟩ 0
    (by decide) (by decide)).1

/-- C8: in production mode a sweep sets status 2 (Ranked) for exactly the
sets that are Qualified (status 4) with `change_date` older than 24 hours
(86400 s): for a set whose rows uniformly carry status `stat` and
timestamp `t0`, every row ends with status 2 when `stat = 4` and
`t0 < now - 86400`, and with its old status otherwise. -/
theorem C8_scheduler_window (st : SysState) (now t0 stat : Int) (sid : Nat)
    (huni : ∀ r ∈ st.maps, r.set_id = sid → r.status = stat ∧ r.change_date = t0) :
    ∀ r ∈ (check_betmap_status_tick st now false).1.maps, r.set_id = sid →
      r.status = (if stat = 4 ∧ t0 < now - 86400 then 2 else stat) := by
  intro r hr hset
  rw [tick_def] at hr
  simp only at hr
  rw [(tickSetStep_foldl_state _ _).1] at hr
  simp only at hr
  rcases List.mem_map.mp hr with ⟨r0, hr0, rfl⟩
  by_cases hq : r0.set_id ∈ qualifiedSetIds st (if false then now - 60 else now - 86400)
  · rw [if_pos hq] at hset ⊢
    have hsid : r0.set_id = sid := hset
    rcases (mem_qualifiedSetIds _ _ _).mp (hsid ▸ hq) with ⟨r1, hr1, hset1, h4, hold⟩
    obtain ⟨hs1, hd1⟩ := huni r1 hr1 hset1
    have hcond : stat = 4 ∧ t0 < now - 86400 := by
      constructor
      · rw [← hs1, h4]
      · rw [← hd1]
        simpa using hold
    rw [if_pos hcond]
  · rw [if_neg hq] at hset ⊢
    obtain ⟨hs0, hd0⟩ := huni r0 hr0 hset
    rw [hs0]
    by_cases hcond : stat = 4 ∧ t0 < now - 86400
    · exfalso
      apply hq
      apply (mem_qualifiedSetIds _ _ _).mpr
      refine ⟨r0, hr0, rfl, ?_, ?_⟩
      · rw [hs0, hcond.1]
      · rw [hd0]
        simpa using hcond.2
    · rw [if_neg hcond]

/-- C8 witness: the one-row Qualified set of `wTickSt` (qualified at time
0) is promoted to status 2 by a sweep at `now = 90000` (25 h later) and
left at status 4 by a sweep at `now = 82800` (23 h later). -/
theorem C8_scheduler_window_witness :
    ((⟨1, 7, "a", 2, false, 0⟩ : MapRow).status
        = (if (4 : Int) = 4 ∧ (0 : Int) < 90000 - 86400 then 2 else 4))
    ∧ ((⟨1, 7, "a", 4, false, 0⟩ : MapRow).status
        = (if (4 : Int) = 4 ∧ (0 : Int) < 82800 - 86400 then 2 else 4)) :=
  ⟨C8_scheduler_window wTickSt 90000 0 4 7 (by decide)
      ⟨1, 7, "a", 2, false, 0⟩ (by decide) (by decide),
   C8_scheduler_window wTickSt 82800 0 4 7 (by decide)
      ⟨1, 7, "a", 4, false, 0⟩ (by decide) (by decide)⟩

/-- C9 (amended): within one sweep only the Discord notification is
deduplicated by the `alreadyrank` list — a given set is notified at most
once — while the set-wide status update is executed once per row of the
qualified query result, i.e. once per qualifying sub-item row even when
several rows carry the same set id. -/
theorem C9_tick_dedup (st : SysState) (now : Int) (dev : Bool) (sid : Nat) :
    ((check_betmap_status_tick st now dev).2.count (TickEvent.notify sid)) ≤ 1
    ∧ ((check_betmap_status_tick st now dev).2.count (TickEvent.statusUpdate sid))
        = (qualifiedSetIds st (if dev then now - 60 else now - 86400)).count sid := by
  constructor
  · rw [tick_def]
    simp only
    rw [tickSetStep_foldl_notifyCount]
    simp only [List.count_nil]
    by_cases h : sid ∈ qualifiedSetIds st (if dev then now - 60 else now - 86400) <;>
      simp [h]
  · rw [tick_def]
    simp only
    rw [tickSetStep_foldl_statusCount]
    simp

theorem cacheGet_map_const (c : List (String × CacheEntry)) (P : String → Prop)
    [DecidablePred P] (e0 : CacheEntry) (x : String) (hx : P x) :
    ∀ e, cacheGet (c.map (fun p => if P p.1 then (p.1, e0) else p)) x = some e → e = e0 := by
  intro e he
  rw [cacheGet] at he
  cases hfind : List.find? (fun p => p.1 == x)
      (c.map (fun p => if P p.1 then (p.1, e0) else p)) with
  | none => rw [hfind] at he; exact Option.noConfusion he
  | some p =>
    rw [hfind] at he
    simp only [Option.map_some'] at he
    have hkey : p.1 = x := by
      have := List.find?_some hfind
      simpa using this
    have hpmem := List.mem_of_find?_eq_some hfind
    rcases List.mem_map.mp hpmem with ⟨p0, _, hp0⟩
    have hp0key : p0.1 = p.1 := by
      rw [← hp0]
      by_cases hin : P p0.1
      · rw [if_pos hin]
      · rw [if_neg hin]
    have hin : P p0.1 := by
      rw [hp0key, hkey]; exact hx
    rw [if_pos hin] at hp0
    injection he with h2
    rw [← h2, ← hp0]

/-- C3 (amended): Love persists (status 5, frozen true), Rank (2, true)
and Cancel (0, false) on every sub-item row of the set, but the
vote-driven qualification only rewrites status (to 4) and `change_date` —
the resulting maps table is exactly the old one with `voteUpd` applied, so
the persisted frozen flag of every row is left unchanged. -/
theorem C3_frozen_persistence :
    (∀ (st : SysState) (d s : Nat) (k apiKey : String) (now : Int) (u : UserRow),
      ModOk st d s k apiKey u →
      fetchStatus st s ∉ [some 2, some 3, some 4, some 5] → setExists st s →
      ∀ r ∈ (api_love_beatmap st (some d) (some s) (some k) apiKey now).1.maps,
        r.set_id = s → r.status = 5 ∧ r.frozen = true)
    ∧ (∀ (st : SysState) (d s : Nat) (k apiKey : String) (now : Int) (u : UserRow),
      ModOk st d s k apiKey u →
      fetchStatus st s ∉ [some 2, some 4, some 5] → setExists st s →
      ∀ r ∈ (api_rank_beatmap st (some d) (some s) (some k) apiKey now).1.maps,
        r.set_id = s → r.status = 2 ∧ r.frozen = true)
    ∧ (∀ (st : SysState) (d s : Nat) (k apiKey : String) (now : Int) (u : UserRow),
      ModOk st d s k apiKey u →
      fetchStatus st s ∉ [some 2, some 3, some 5] → setExists st s →
      ∀ r ∈ (api_cancel_beatmap st (some d) (some s) (some k) apiKey now).1.maps,
        r.set_id = s → r.status = 0 ∧ r.frozen = false)
    ∧ (∀ (st : SysState) (d s : Nat) (k apiKey : String) (now : Int) (u : UserRow),
      VoteOk st d s k apiKey u →
      fetchStatus st s ∉ [some 2, some 3, some 4, some 5] →
      (u.id, s) ∉ st.votes → setExists st s →
      (st.votes.filter (fun p => p.2 == s)).length ≠ 0 →
      (api_vote_beatmap st (some d) (some s) (some k) apiKey now).1.maps
        = st.maps.map (voteUpd s now)) := by
  refine ⟨?_, ?_, ?_, ?_⟩
  · rintro st d s k apiKey now u ⟨hd, hs, hk, hu, hnat, hkey⟩ hstat hex r hr hset
    rw [api_love_beatmap, modAction_success_eq st d s k apiKey now _ 5 true u
      hd hs hk hu hnat hkey hstat hex] at hr
    have h := modFinal_maps st s 5 true now r hr hset
    exact ⟨h.1, h.2.1⟩
  · rintro st d s k apiKey now u ⟨hd, hs, hk, hu, hnat, hkey⟩ hstat hex r hr hset
    rw [api_rank_beatmap, modAction_success_eq st d s k apiKey now _ 2 true u
      hd hs hk hu hnat hkey hstat hex] at hr
    have h := modFinal_maps st s 2 true now r hr hset
    exact ⟨h.1, h.2.1⟩
  · rintro st d s k apiKey now u ⟨hd, hs, hk, hu, hnat, hkey⟩ hstat hex r hr hset
    rw [api_cancel_beatmap, modAction_success_eq st d s k apiKey now _ 0 false u
      hd hs hk hu hnat hkey hstat hex] at hr
    have h := modFinal_maps st s 0 false now r hr hset
    exact ⟨h.1, h.2.1⟩
  · rintro st d s k apiKey now u ⟨hd, hs, hk, hu, hauth, hkey⟩ hstat hnv hex hcnt
    rw [api_vote_quorum_eq st d s k apiKey now u hd hs hk hu hauth hkey hstat hnv hex hcnt]
    exact voteFinal_maps st s now

/-- C3 witness: on the concrete one-row Pending set, Love yields the row
(5, frozen), Rank (2, frozen), Cancel (0, unfrozen), and the quorum vote
rewrites the maps table by `voteUpd` only. -/
theorem C3_frozen_persistence_witness :
    ((⟨1, 7, "a", 5, true, 1000⟩ : MapRow).status = 5
      ∧ (⟨1, 7, "a", 5, true, 1000⟩ : MapRow).frozen = true)
    ∧ ((⟨1, 7, "a", 2, true, 1000⟩ : MapRow).status = 2
      ∧ (⟨1, 7, "a", 2, true, 1000⟩ : MapRow).frozen = true)
    ∧ ((⟨1, 7, "a", 0, false, 1000⟩ : MapRow).status = 0
      ∧ (⟨1, 7, "a", 0, false, 1000⟩ : MapRow).frozen = false)
    ∧ (api_vote_beatmap wModSt (some 12) (some 7) (some "k") "k" 1000).1.maps
        = wModSt.maps.map (voteUpd 7 1000) :=
  ⟨C3_frozen_persistence.1 wModSt 12 7 "k" "k" 1000 ⟨10, 12, "u", true, true⟩
      (by decide) (by decide) (by decide) ⟨1, 7, "a", 5, true, 1000⟩ (by decide) (by decide),
   C3_frozen_persistence.2.1 wModSt 12 7 "k" "k" 1000 ⟨10, 12, "u", true, true⟩
      (by decide) (by decide) (by decide) ⟨1, 7, "a", 2, true, 1000⟩ (by decide) (by decide),
   C3_frozen_persistence.2.2.1 wModSt 12 7 "k" "k" 1000 ⟨10, 12, "u", true, true⟩
      (by decide) (by decide) (by decide) ⟨1, 7, "a", 0, false, 1000⟩ (by decide) (by decide),
   C3_frozen_persistence.2.2.2 wModSt 12 7 "k" "k" 1000 ⟨10, 12, "u", true, true⟩
      (by decide) (by decide) (by decide) (by decide) (by decide)⟩

/-- C1 (amended): when the second distinct authorized voter's vote is
accepted on a Pending set, the persisted status becomes 4 (Qualified) but
only the accepting voter's own redis key is deleted — the vote-key store
ends exactly as it started, so the earlier voter's record survives and the
distinct-voter tally afterwards is 1, not 0. -/
theorem C1_quorum_tally (st : SysState) (d s : Nat) (k apiKey : String)
    (now : Int) (u : UserRow)
    (hok : VoteOk st d s k apiKey u)
    (hstat : fetchStatus st s = some 0)
    (hnv : (u.id, s) ∉ st.votes)
    (hcnt : (st.votes.filter (fun p => p.2 == s)).length = 1) :
    (api_vote_beatmap st (some d) (some s) (some k) apiKey now).2
        = ApiResp.voteAccepted 2 0
    ∧ (∀ r ∈ (api_vote_beatmap st (some d) (some s) (some k) apiKey now).1.maps,
        r.set_id = s → r.status = 4)
    ∧ (api_vote_beatmap st (some d) (some s) (some k) apiKey now).1.votes = st.votes := by
  obtain ⟨hd, hs, hk, hu, hauth, hkey⟩ := hok
  have hnot : fetchStatus st s ∉ [some 2, some 3, some 4, some 5] := by
    rw [hstat]; decide
  have hex := setExists_of_fetchStatus st s 0 hstat
  have heq := api_vote_quorum_eq st d s k apiKey now u hd hs hk hu hauth hkey hnot hnv hex
    (by omega)
  rw [heq]
  refine ⟨by rw [hcnt], ?_, voteFinal_votes st s now⟩
  intro r hr hset
  simp only at hr
  rw [voteFinal_maps] at hr
  rcases List.mem_map.mp hr with ⟨r0, hr0, rfl⟩
  by_cases h : r0.set_id = s
  · rw [voteUpd, if_pos (by simp [h])]
  · exfalso
    apply h
    rw [← hset, voteUpd, if_neg (by simp [h])]

/-- C1 witness: on the concrete state with one prior vote by voter 99, the
vote of user 10 is accepted as the second vote, the votes store is
unchanged (still holding voter 99's record) and the promoted row carries
status 4. -/
theorem C1_quorum_tally_witness :
    (api_vote_beatmap wModSt (some 12) (some 7) (some "k") "k" 1000).2
        = ApiResp.voteAccepted 2 0
    ∧ (api_vote_beatmap wModSt (some 12) (some 7) (some "k") "k" 1000).1.votes
        = wModSt.votes
    ∧ (⟨1, 7, "a", 4, false, 1000⟩ : MapRow).status = 4 :=
  ⟨(C1_quorum_tally wModSt 12 7 "k" "k" 1000 ⟨10, 12, "u", true, true⟩
      (by decide) (by decide) (by decide) (by decide)).1,
   (C1_quorum_tally wModSt 12 7 "k" "k" 1000 ⟨10, 12, "u", true, true⟩
      (by decide) (by decide) (by decide) (by decide)).2.2,
   (C1_quorum_tally wModSt 12 7 "k" "k" 1000 ⟨10, 12, "u", true, true⟩
      (by decide) (by decide) (by decide) (by decide)).2.1
     ⟨1, 7, "a", 4, false, 1000⟩ (by decide) (by decide)⟩

/-- C2 (amended): after a successful moderator transition every cached
fingerprint of the set matches the freshly persisted {status, frozen};
after the vote-driven qualification the persisted status is 4 but every
cached entry of the set is written as {status 2, frozen true}; the
scheduler promotion persists status 2 with frozen *unchanged* (the maps
table is exactly the old one with only the status rewritten) while
writing {status 2, frozen true} into the cache. -/
theorem C2_cache_consistency :
    (∀ (st : SysState) (d s : Nat) (k apiKey : String) (now : Int)
        (rejects : List (Option Int)) (t : Int) (f : Bool) (u : UserRow),
      ModOk st d s k apiKey u → fetchStatus st s ∉ rejects → setExists st s →
      ∀ r ∈ (modAction st (some d) (some s) (some k) apiKey now rejects t f).1.maps,
        r.set_id = s →
        ∀ e, cacheGet (modAction st (some d) (some s) (some k) apiKey now rejects t f).1.cache
            r.md5 = some e →
          e.status = r.status ∧ e.frozen = r.frozen)
    ∧ (∀ (st : SysState) (d s : Nat) (k apiKey : String) (now : Int) (u : UserRow),
      VoteOk st d s k apiKey u → fetchStatus st s ∉ [some 2, some 3, some 4, some 5] →
      (u.id, s) ∉ st.votes → setExists st s →
      (st.votes.filter (fun p => p.2 == s)).length ≠ 0 →
      ∀ r ∈ (api_vote_beatmap st (some d) (some s) (some k) apiKey now).1.maps,
        r.set_id = s →
          r.status = 4
          ∧ ∀ e, cacheGet (api_vote_beatmap st (some d) (some s) (some k) apiKey now).1.cache
              r.md5 = some e → e = ⟨2, true⟩)
    ∧ (∀ (st : SysState) (now : Int) (dev : Bool),
        (check_betmap_status_tick st now dev).1.maps
          = st.maps.map (fun r =>
              if r.set_id ∈ qualifiedSetIds st (if dev then now - 60 else now - 86400)
              then { r with status := 2 } else r)
        ∧ ∀ sid ∈ qualifiedSetIds st (if dev then now - 60 else now - 86400),
            ∀ r ∈ st.maps, r.set_id = sid →
            ∀ e, cacheGet (check_betmap_status_tick st now dev).1.cache r.md5 = some e →
              e = ⟨2, true⟩) := by
  refine ⟨?_, ?_, ?_⟩
  · rintro st d s k apiKey now rejects t f u ⟨hd, hs, hk, hu, hnat, hkey⟩ hstat hex r hr hset e he
    rw [modAction_success_eq st d s k apiKey now rejects t f u
      hd hs hk hu hnat hkey hstat hex] at hr he
    simp only at hr he
    obtain ⟨h1, h2, _⟩ := modFinal_maps st s t f now r hr hset
    have he2 := modFinal_cache st s t f now r hr hset e he
    rw [he2, h1, h2]
    exact ⟨rfl, rfl⟩
  · rintro st d s k apiKey now u ⟨hd, hs, hk, hu, hauth, hkey⟩ hstat hnv hex hcnt r hr hset
    rw [api_vote_quorum_eq st d s k apiKey now u
      hd hs hk hu hauth hkey hstat hnv hex hcnt] at hr
    simp only at hr
    constructor
    · rw [voteFinal_maps] at hr
      rcases List.mem_map.mp hr with ⟨r0, hr0, rfl⟩
      by_cases h : r0.set_id = s
      · rw [voteUpd, if_pos (by simp [h])]
      · exfalso
        apply h
        rw [← hset, voteUpd, if_neg (by simp [h])]
    · intro e he
      rw [api_vote_quorum_eq st d s k apiKey now u
        hd hs hk hu hauth hkey hstat hnv hex hcnt] at he
      simp only at he
      exact voteFinal_cache st s now r hr hset e he
  · intro st now dev
    constructor
    · rw [tick_def]
      simp only
      rw [(tickSetStep_foldl_state _ _).1]
    · intro sid hsid r hr hset e he
      rw [tick_def] at he
      simp only at he
      rw [(tickSetStep_foldl_state _ _).2.2.2.1] at he
      simp only at he
      exact cacheGet_map_const st.cache
        (fun x => ∃ r2 ∈ st.maps,
          r2.set_id ∈ qualifiedSetIds st (if dev then now - 60 else now - 86400)
          ∧ r2.md5 = x)
        ⟨2, true⟩ r.md5 ⟨r, hr, by rw [hset]; exact hsid, rfl⟩ e he

/-- C2 witness: concrete runs of the moderator Love (through the shared
success branch), the quorum vote, and a production sweep on the witness
states. -/
theorem C2_cache_consistency_witness :
    ((⟨5, true⟩ : CacheEntry).status = (⟨1, 7, "a", 5, true, 1000⟩ : MapRow).status
      ∧ (⟨5, true⟩ : CacheEntry).frozen = (⟨1, 7, "a", 5, true, 1000⟩ : MapRow).frozen)
    ∧ ((⟨2, true⟩ : CacheEntry) = (⟨2, true⟩ : CacheEntry))
    ∧ ((check_betmap_status_tick wTickSt 90000 false).1.maps
        = wTickSt.maps.map (fun r =>
            if r.set_id ∈ qualifiedSetIds wTickSt (if false then 90000 - 60 else 90000 - 86400)
            then { r with status := 2 } else r)) :=
  ⟨C2_cache_consistency.1 wModSt 12 7 "k" "k" 1000 [some 2, some 3, some 4, some 5] 5 true
      ⟨10, 12, "u", true, true⟩ (by decide) (by decide) (by decide)
      ⟨1, 7, "a", 5, true, 1000⟩ (by decide) (by decide) ⟨5, true⟩ (by decide),
   (C2_cache_consistency.2.1 wModSt 12 7 "k" "k" 1000 ⟨10, 12, "u", true, true⟩
      (by decide) (by decide) (by decide) (by decide) (by decide)
      ⟨1, 7, "a", 4, false, 1000⟩ (by decide) (by decide)).2 ⟨2, true⟩ (by decide),
   (C2_cache_consistency.2.2 wTickSt 90000 false).1⟩

/-- C5 (amended): sequentially the double-vote rejection holds — a vote
call by a voter whose record exists is answered "already voted" with the
state (hence the tally) unchanged — but the registration is a non-atomic
redis read-then-write, so under the interleaving read-read-write-write two
identical concurrent calls are *both* accepted. -/
theorem C5_vote_uniqueness :
    (∀ (st : SysState) (d s : Nat) (k apiKey : String) (now : Int) (u : UserRow),
      VoteOk st d s k apiKey u →
      fetchStatus st s ∉ [some 2, some 3, some 4, some 5] →
      (u.id, s) ∈ st.votes →
      api_vote_beatmap st (some d) (some s) (some k) apiKey now = (st, .alreadyVoted))
    ∧ ((raceRun 5 7 [false, true, false, true] ⟨[], .ready, .ready⟩).p1
          = VotePhase.done true
      ∧ (raceRun 5 7 [false, true, false, true] ⟨[], .ready, .ready⟩).p2
          = VotePhase.done true) := by
  constructor
  · rintro st d s k apiKey now u ⟨hd, hs, hk, hu, hauth, hkey⟩ hstat hv
    exact api_vote_already_eq st d s k apiKey now u hd hs hk hu hauth hkey hstat hv
  · exact ⟨by decide, by decide⟩

/-- C5 witness: user 10, who already holds a vote record for set 7, is
rejected with the state unchanged. -/
theorem C5_vote_uniqueness_witness :
    api_vote_beatmap wVotedSt (some 12) (some 7) (some "k") "k" 1000
      = (wVotedSt, .alreadyVoted) :=
  C5_vote_uniqueness.1 wVotedSt 12 7 "k" "k" 1000 ⟨10, 12, "u", true, true⟩
    (by decide) (by decide) (by decide)

/-- C6 (amended): only the scheduler's promotion into Ranked purges
scores: a sweep deletes every score and every pending map request
referencing any sub-item of a promoted set, while the moderator Rank
action deletes the set's pending map requests but returns with the
`scores` table exactly as it was. -/
theorem C6_ranked_purge :
    (∀ (st : SysState) (d s : Nat) (k apiKey : String) (now : Int) (u : UserRow),
      ModOk st d s k apiKey u →
      fetchStatus st s ∉ [some 2, some 4, some 5] → setExists st s →
      (api_rank_beatmap st (some d) (some s) (some k) apiKey now).1.scores = st.scores
      ∧ ∀ q ∈ (api_rank_beatmap st (some d) (some s) (some k) apiKey now).1.map_requests,
          ∀ r ∈ st.maps, r.set_id = s → q.map_id ≠ r.id)
    ∧ (∀ (st : SysState) (now : Int) (dev : Bool),
      ∀ r0 ∈ st.maps, r0.status = 4 →
        r0.change_date < (if dev then now - 60 else now - 86400) →
        ∀ r1 ∈ st.maps, r1.set_id = r0.set_id →
          (∀ sc ∈ (check_betmap_status_tick st now dev).1.scores, sc.map_md5 ≠ r1.md5)
          ∧ (∀ q ∈ (check_betmap_status_tick st now dev).1.map_requests,
              q.map_id ≠ r1.id)) := by
  constructor
  · rintro st d s k apiKey now u ⟨hd, hs, hk, hu, hnat, hkey⟩ hstat hex
    rw [api_rank_beatmap, modAction_success_eq st d s k apiKey now _ 2 true u
      hd hs hk hu hnat hkey hstat hex]
    simp only
    exact ⟨modFinal_scores st s 2 true now, modFinal_requests st s 2 true now⟩
  · intro st now dev r0 hr0 h4 hold r1 hr1 hset
    have hq : r0.set_id ∈ qualifiedSetIds st (if dev then now - 60 else now - 86400) :=
      (mem_qualifiedSetIds _ _ _).mpr ⟨r0, hr0, rfl, h4, hold⟩
    constructor
    · intro sc hsc heq
      rw [tick_def] at hsc
      simp only at hsc
      rw [(tickSetStep_foldl_state _ _).2.1] at hsc
      simp only at hsc
      have hpred := List.of_mem_filter hsc
      simp only [decide_eq_true_eq] at hpred
      exact hpred ⟨r1, hr1, by rw [hset]; exact hq, heq.symm⟩
    · intro q hquer heq
      rw [tick_def] at hquer
      simp only at hquer
      rw [(tickSetStep_foldl_state _ _).2.2.1] at hquer
      simp only at hquer
      have hpred := List.of_mem_filter hquer
      simp only [decide_eq_true_eq] at hpred
      exact hpred ⟨r1, hr1, by rw [hset]; exact hq, heq.symm⟩

/-- C6 witness: Rank succeeds on the concrete Pending set while its
submitted score survives untouched. -/
theorem C6_ranked_purge_witness :
    (api_rank_beatmap wModSt (some 12) (some 7) (some "k") "k" 1000).1.scores
      = wModSt.scores :=
  (C6_ranked_purge.1 wModSt 12 7 "k" "k" 1000 ⟨10, 12, "u", true, true⟩
    (by decide) (by decide) (by decide)).1
